import Mathlib

/-! CHIP-8 opcode handlers (`chip8/opcode_handler.go`)

A shallow embedding of the instruction handlers of the emulator and a
verification of their specification.

* Go fixed-size arrays (`Memory`, `V`, `Stack`, `Display`, `Keypad`) are total
  functions `Nat → Nat`; every array access whose index is not known to be in
  range carries the bounds check of the Go runtime and ends in
  `Outcome.panic` when it fails.
* Machine integers are natural numbers, reduced `% 2^w` wherever the Go
  arithmetic is done in a `w`-bit type.
* A handler mutates the receiver in place and returns `error`; it is modelled
  as a function `Cpu → Outcome`, where `Outcome.err` carries the state as it is
  at the moment the error is returned.
-/

namespace Chip8

/-! ## Data model -/

/-- Modelled from the spec: the constant `MEMORY_SIZE` is declared outside
`opcode_handler.go`; the memory is "conventionally 4096 bytes". -/
def MEMORY_SIZE : Nat := 4096

/-- Modelled from the spec: the constant `STACK_SIZE` is declared outside
`opcode_handler.go`; the stack has "conventional capacity 16". -/
def STACK_SIZE : Nat := 16

/-- Modelled from the spec: the constant `NUM_COLS` is declared outside
`opcode_handler.go`; the display is "conventional 64×32 pixels", row-major. -/
def NUM_COLS : Nat := 64

/-- Modelled from the spec: number of display rows (64×32 pixels). -/
def NUM_ROWS : Nat := 32

/-- Modelled from the spec: length of the `Display` array, one byte per pixel
of the 64×32 bitmap. -/
def DISPLAY_SIZE : Nat := NUM_COLS * NUM_ROWS

/-- Modelled from the spec: length of the `Keypad` array ("16-element array"). -/
def NUM_KEYS : Nat := 16

/-- Modelled from the spec: the `Cpu` struct is declared outside
`opcode_handler.go`.  Field names are those used by the handlers; the types
are the ones the handlers force (`Opcode`, `PC`, `I` and the stack entries are
`uint16`, registers, memory, display cells, keys and timers are `uint8`). -/
structure Cpu where
  /-- `[MEMORY_SIZE]uint8` -/
  Memory : Nat → Nat
  /-- `[16]uint8` -/
  V : Nat → Nat
  /-- `uint16` -/
  I : Nat
  /-- `uint16` -/
  PC : Nat
  /-- `[STACK_SIZE]uint16` -/
  Stack : Nat → Nat
  /-- unsigned stack depth -/
  SP : Nat
  /-- `uint8` -/
  DelayTimer : Nat
  /-- `uint8` -/
  SoundTimer : Nat
  /-- `[DISPLAY_SIZE]uint8` -/
  Display : Nat → Nat
  /-- `[NUM_KEYS]uint8` -/
  Keypad : Nat → Nat
  /-- `bool` -/
  ShouldDraw : Bool
  /-- `uint16`, the instruction word being executed -/
  Opcode : Nat

/-- Result of calling a handler: `ok` is a `nil` error, `err` a non-nil error
(with the state the receiver is left in), `panic` a Go runtime panic
(index or slice bound out of range). -/
inductive Outcome where
  | ok (cpu : Cpu)
  | err (cpu : Cpu) (msg : String)
  | panic

/-- Conversion to `uint8`. -/
def u8 (n : Nat) : Nat := n % 256

/-- Conversion to `uint16` (and the wrap-around of `uint16` arithmetic). -/
def u16 (n : Nat) : Nat := n % 65536

/-- Wrap-around of `int16` arithmetic. -/
def i16 (z : Int) : Int := (z + 32768) % 65536 - 32768

/-- Conversion of a signed value to `uint8`. -/
def u8OfInt (z : Int) : Nat := (z % 256).toNat

/-- The type invariant of a machine state: every field holds a value of its
Go type. -/
structure WF (cpu : Cpu) : Prop where
  mem : ∀ a, a < MEMORY_SIZE → cpu.Memory a < 256
  reg : ∀ r, r < 16 → cpu.V r < 256
  idx : cpu.I < 65536
  pc : cpu.PC < 65536
  stack : ∀ k, k < STACK_SIZE → cpu.Stack k < 65536
  sp : cpu.SP < 65536
  delay : cpu.DelayTimer < 256
  sound : cpu.SoundTimer < 256
  disp : ∀ i, i < DISPLAY_SIZE → cpu.Display i < 256
  keys : ∀ k, k < NUM_KEYS → cpu.Keypad k < 256
  op : cpu.Opcode < 65536

/-! ## Handlers -/

/-- `Handle00Opcodes`: `00E0` clears the screen, `00EE` returns from a
subroutine. -/
def Handle00Opcodes (cpu : Cpu) : Outcome :=
  if cpu.Opcode = 0x00E0 then
    let cpu1 := { cpu with
      Display := fun i => if i < DISPLAY_SIZE then 0 else cpu.Display i
      ShouldDraw := true }
    .ok { cpu1 with PC := u16 (cpu1.PC + 2) }
  else if cpu.Opcode = 0x00EE then
    if cpu.SP = 0 then
      .err cpu "SP is 0! No functions to return from!"
    else
      let cpu1 := { cpu with SP := cpu.SP - 1 }
      if cpu1.SP < STACK_SIZE then
        let cpu2 := { cpu1 with PC := cpu1.Stack cpu1.SP }
        .ok { cpu2 with PC := u16 (cpu2.PC + 2) }
      else .panic
  else
    .err cpu (toString cpu.Opcode ++ ": Invalid Opcode in Handle00Opcodes()")

/-- `Handle1NNNOpcode`: jump to address NNN. -/
def Handle1NNNOpcode (cpu : Cpu) : Outcome :=
  let target := cpu.Opcode &&& 0x0FFF
  .ok { cpu with PC := target }

/-- `Handle2NNNOpcode`: call the subroutine at address NNN. -/
def Handle2NNNOpcode (cpu : Cpu) : Outcome :=
  if cpu.SP ≥ STACK_SIZE then
    .err cpu "Cannot call function! Stack is full!"
  else
    let cpu1 := { cpu with Stack := Function.update cpu.Stack cpu.SP cpu.PC }
    let cpu2 := { cpu1 with SP := cpu1.SP + 1 }
    let target := cpu2.Opcode &&& 0x0FFF
    .ok { cpu2 with PC := target }

/-- `Handle3XNNOpcode`: skip the next instruction if `V[X] == NN`. -/
def Handle3XNNOpcode (cpu : Cpu) : Outcome :=
  let nn := u8 (cpu.Opcode &&& 0x00FF)
  let x := (cpu.Opcode &&& 0x0F00) >>> 8
  if cpu.V x = nn then
    .ok { cpu with PC := u16 (cpu.PC + 4) }
  else
    .ok { cpu with PC := u16 (cpu.PC + 2) }

/-- `Handle4XNNOpcode`: skip the next instruction if `V[X] != NN`. -/
def Handle4XNNOpcode (cpu : Cpu) : Outcome :=
  let nn := u8 (cpu.Opcode &&& 0x00FF)
  let x := (cpu.Opcode &&& 0x0F00) >>> 8
  if cpu.V x ≠ nn then
    .ok { cpu with PC := u16 (cpu.PC + 4) }
  else
    .ok { cpu with PC := u16 (cpu.PC + 2) }

/-- `Handle5XY0Opcode`: skip the next instruction if `V[X] == V[Y]`. -/
def Handle5XY0Opcode (cpu : Cpu) : Outcome :=
  if cpu.Opcode &&& 0x000F ≠ 0 then
    .err cpu "Last word in 5XY0 instructions should be 0!"
  else
    let x := (cpu.Opcode &&& 0x0F00) >>> 8
    let y := (cpu.Opcode &&& 0x00F0) >>> 4
    if cpu.V x = cpu.V y then
      .ok { cpu with PC := u16 (cpu.PC + 4) }
    else
      .ok { cpu with PC := u16 (cpu.PC + 2) }

/-- `Handle6XNNOpcode`: `V[X] = NN`. -/
def Handle6XNNOpcode (cpu : Cpu) : Outcome :=
  let nn := u8 (cpu.Opcode &&& 0x00FF)
  let x := (cpu.Opcode &&& 0x0F00) >>> 8
  let cpu1 := { cpu with V := Function.update cpu.V x nn }
  .ok { cpu1 with PC := u16 (cpu1.PC + 2) }

/-- `Handle7xNNOpcode`: `V[X] += NN` (8-bit wrap-around). -/
def Handle7xNNOpcode (cpu : Cpu) : Outcome :=
  let nn := u8 (cpu.Opcode &&& 0x00FF)
  let x := (cpu.Opcode &&& 0x0F00) >>> 8
  let cpu1 := { cpu with V := Function.update cpu.V x (u8 (cpu.V x + nn)) }
  .ok { cpu1 with PC := u16 (cpu1.PC + 2) }

/-- `Handle8XYOpcodes`: register-register ALU operations. -/
def Handle8XYOpcodes (cpu : Cpu) : Outcome :=
  let x := (cpu.Opcode &&& 0x0F00) >>> 8
  let y := (cpu.Opcode &&& 0x00F0) >>> 4
  let sub := cpu.Opcode &&& 0x000F
  let done (c : Cpu) : Outcome := .ok { c with PC := u16 (c.PC + 2) }
  if sub = 0x0 then
    done { cpu with V := Function.update cpu.V x (cpu.V y) }
  else if sub = 0x1 then
    done { cpu with V := Function.update cpu.V x (cpu.V x ||| cpu.V y) }
  else if sub = 0x2 then
    done { cpu with V := Function.update cpu.V x (cpu.V x &&& cpu.V y) }
  else if sub = 0x3 then
    done { cpu with V := Function.update cpu.V x (cpu.V x ^^^ cpu.V y) }
  else if sub = 0x4 then
    let res := u16 (cpu.V x + cpu.V y)
    let carry := if res > 0xFF then 1 else 0
    let cpu1 := { cpu with V := Function.update cpu.V x (u8 res) }
    done { cpu1 with V := Function.update cpu1.V 0xF carry }
  else if sub = 0x5 then
    let res := i16 ((cpu.V x : Int) - (cpu.V y : Int))
    let not_borrow := if res < 0 then 0 else 1
    let cpu1 := { cpu with V := Function.update cpu.V x (u8OfInt res) }
    done { cpu1 with V := Function.update cpu1.V 0xF not_borrow }
  else if sub = 0x6 then
    let lsb := cpu.V x &&& 0x01
    let cpu1 := { cpu with V := Function.update cpu.V 0xF lsb }
    done { cpu1 with V := Function.update cpu1.V x (cpu1.V x >>> 1) }
  else if sub = 0x7 then
    let res := i16 ((cpu.V y : Int) - (cpu.V x : Int))
    let not_borrow := if res < 0 then 0 else 1
    let cpu1 := { cpu with V := Function.update cpu.V x (u8OfInt res) }
    done { cpu1 with V := Function.update cpu1.V 0xF not_borrow }
  else if sub = 0xE then
    let lsb := cpu.V x &&& 0x01
    let cpu1 := { cpu with V := Function.update cpu.V 0xF lsb }
    done { cpu1 with V := Function.update cpu1.V x (u8 (cpu1.V x <<< 1)) }
  else
    .err cpu (toString cpu.Opcode ++ ": Invalid Opcode in Handle8XYOpcodes()")

/-- `Handle9XY0Opcode`: skip the next instruction if `V[X] != V[Y]`. -/
def Handle9XY0Opcode (cpu : Cpu) : Outcome :=
  if cpu.Opcode &&& 0x000F ≠ 0 then
    .err cpu "Last word in 5XY0 instructions should be 0!"
  else
    let x := (cpu.Opcode &&& 0x0F00) >>> 8
    let y := (cpu.Opcode &&& 0x00F0) >>> 4
    if cpu.V x ≠ cpu.V y then
      .ok { cpu with PC := u16 (cpu.PC + 4) }
    else
      .ok { cpu with PC := u16 (cpu.PC + 2) }

/-- `HandleANNNOpcode`: `I = NNN`. -/
def HandleANNNOpcode (cpu : Cpu) : Outcome :=
  let nnn := cpu.Opcode &&& 0x0FFF
  let cpu1 := { cpu with I := nnn }
  .ok { cpu1 with PC := u16 (cpu1.PC + 2) }

/-- `HandleBNNNOpcode`: `PC = V[0] + NNN`. -/
def HandleBNNNOpcode (cpu : Cpu) : Outcome :=
  let nnn := cpu.Opcode &&& 0x0FFF
  .ok { cpu with PC := u16 (cpu.V 0 + nnn) }

/-- `HandleCXNNOpcode`: `V[X] = rand() & NN`.  The generator seeded from the
clock is outside the program text; `rand_int` stands for the value returned by
`rand_generator.Intn(256)`. -/
def HandleCXNNOpcode (cpu : Cpu) (rand_int : Nat) : Outcome :=
  let x := (cpu.Opcode &&& 0x0F00) >>> 8
  let nn := u8 (cpu.Opcode &&& 0x00FF)
  let rand_num := u8 rand_int
  let cpu1 := { cpu with V := Function.update cpu.V x (rand_num &&& nn) }
  .ok { cpu1 with PC := u16 (cpu1.PC + 2) }

/-- Body of the innermost `if` of `HandleDXYNOpcode`: record a collision when
the cell is on, then flip the cell. -/
def drawPixel (cpu : Cpu) (idx : Nat) : Cpu :=
  let cpu1 := if cpu.Display idx = 1 then { cpu with V := Function.update cpu.V 0xF 1 } else cpu
  { cpu1 with Display := Function.update cpu1.Display idx (cpu1.Display idx ^^^ 1) }

/-- Body of the inner loop of `HandleDXYNOpcode` for column `curr_x`; `none`
is an out-of-range index into `Display`. -/
def drawCol (x y curr_y pixel : Nat) (cpu : Cpu) (curr_x : Nat) : Option Cpu :=
  if pixel &&& (0x80 >>> curr_x) ≠ 0 then
    let idx := u16 (x + curr_x + (y + curr_y) * NUM_COLS)
    if idx < DISPLAY_SIZE then some (drawPixel cpu idx) else none
  else some cpu

/-- Body of the outer loop of `HandleDXYNOpcode` for sprite row `curr_y`;
`none` is an out-of-range index into `Memory` or `Display`. -/
def drawRow (x y : Nat) (cpu : Cpu) (curr_y : Nat) : Option Cpu :=
  let addr := u16 (cpu.I + curr_y)
  if addr < MEMORY_SIZE then
    let pixel := cpu.Memory addr
    (List.range 8).foldlM (drawCol x y curr_y pixel) cpu
  else none

/-- `HandleDXYNOpcode`: draw the N-row sprite stored at `Memory[I..]` at
`(V[X], V[Y])`. -/
def HandleDXYNOpcode (cpu : Cpu) : Outcome :=
  let x := u16 (cpu.V ((cpu.Opcode &&& 0x0F00) >>> 8))
  let y := u16 (cpu.V ((cpu.Opcode &&& 0x00F0) >>> 4))
  let n := cpu.Opcode &&& 0x000F
  let cpu0 := { cpu with V := Function.update cpu.V 0xF 0 }
  match (List.range n).foldlM (drawRow x y) cpu0 with
  | none => .panic
  | some cpu1 =>
    let cpu2 := { cpu1 with PC := u16 (cpu1.PC + 2) }
    .ok { cpu2 with ShouldDraw := true }

/-- `HandleEXOpcodes`: skip on key pressed / not pressed. -/
def HandleEXOpcodes (cpu : Cpu) : Outcome :=
  let x := (cpu.Opcode &&& 0x0F00) >>> 8
  let sub := cpu.Opcode &&& 0x00FF
  let done (c : Cpu) : Outcome := .ok { c with PC := u16 (c.PC + 2) }
  if sub = 0x9E then
    if cpu.V x < NUM_KEYS then
      if cpu.Keypad (cpu.V x) ≠ 0 then
        done { cpu with PC := u16 (cpu.PC + 2) }
      else done cpu
    else .panic
  else if sub = 0xA1 then
    if cpu.V x < NUM_KEYS then
      if cpu.Keypad (cpu.V x) = 0 then
        done { cpu with PC := u16 (cpu.PC + 2) }
      else done cpu
    else .panic
  else
    .err cpu (toString cpu.Opcode ++ ": Invalid Opcode in HandleEXOpcodes()")

/-- Body of the key scan of `FX0A`: the loop state is the local `key_pressed`
and the machine state. -/
def scanKey (x : Nat) (acc : Bool × Cpu) (i : Nat) : Bool × Cpu :=
  if acc.2.Keypad i ≠ 0 then
    (true, { acc.2 with V := Function.update acc.2.V x (u8 i) })
  else acc

/-- `HandleFXOpcodes`: timers, key wait, index register, BCD, bulk
store/load. -/
def HandleFXOpcodes (cpu : Cpu) : Outcome :=
  let x := (cpu.Opcode &&& 0x0F00) >>> 8
  let sub := cpu.Opcode &&& 0x00FF
  let done (c : Cpu) : Outcome := .ok { c with PC := u16 (c.PC + 2) }
  if sub = 0x07 then
    done { cpu with V := Function.update cpu.V x cpu.DelayTimer }
  else if sub = 0x0A then
    let r := (List.range NUM_KEYS).foldl (scanKey x) (false, cpu)
    if r.1 = false then .ok r.2 else done r.2
  else if sub = 0x15 then
    done { cpu with DelayTimer := cpu.V x }
  else if sub = 0x18 then
    done { cpu with SoundTimer := cpu.V x }
  else if sub = 0x1E then
    let res := (cpu.I + cpu.V x) % 4294967296
    let carry := if res > 0xFF then 1 else 0
    let cpu1 := { cpu with I := u16 res }
    done { cpu1 with V := Function.update cpu1.V 0xF carry }
  else if sub = 0x29 then
    done { cpu with I := u16 (cpu.V x * 5) }
  else if sub = 0x33 then
    if cpu.I > MEMORY_SIZE - 3 then
      .err cpu "I is too close to the memory limit for Opcode 0xFX33 to execute!"
    else
      -- the guard gives I + 2 < MEMORY_SIZE: the three stores are in range
      let cpu1 := { cpu with Memory := Function.update cpu.Memory cpu.I (cpu.V x / 100) }
      let cpu2 := { cpu1 with
        Memory := Function.update cpu1.Memory (u16 (cpu1.I + 1)) ((cpu1.V x % 100) / 10) }
      done { cpu2 with Memory := Function.update cpu2.Memory (u16 (cpu2.I + 2)) (cpu2.V x % 10) }
  else if sub = 0x55 then
    if cpu.I > u16 (MEMORY_SIZE + 65536 - x) then
      .err cpu "I is too close to the memory limit for Opcode 0xFX55 to execute!"
    else if cpu.I ≤ MEMORY_SIZE ∧ u16 (x + 1) ≤ 16 then
      -- copy(dst, src) moves min(len(dst), len(src)) elements
      let cnt := min (MEMORY_SIZE - cpu.I) (u16 (x + 1))
      done { cpu with
        Memory := fun a => if cpu.I ≤ a ∧ a < cpu.I + cnt then cpu.V (a - cpu.I) else cpu.Memory a }
    else .panic
  else if sub = 0x65 then
    if cpu.I > u16 (MEMORY_SIZE + 65536 - x) then
      .err cpu "I is too close to the memory limit for Opcode 0xFX65 to execute!"
    else
      let hi := u16 (cpu.I + x + 1)
      if cpu.I ≤ hi ∧ hi ≤ MEMORY_SIZE then
        let cnt := min 16 (hi - cpu.I)
        done { cpu with V := fun r => if r < cnt then cpu.Memory (cpu.I + r) else cpu.V r }
      else .panic
  else
    .err cpu (toString cpu.Opcode ++ ": Invalid Opcode in HandleFXOpcodes()")

/-- `HandleOpcode`: dispatch on the top four bits of the instruction word.
`rand_int` is the value the random generator yields should the word be in
family `0xC`. -/
def HandleOpcode (cpu : Cpu) (rand_int : Nat) : Outcome :=
  let fam := (cpu.Opcode &&& 0xF000) >>> 12
  if fam = 0x0 then Handle00Opcodes cpu
  else if fam = 0x1 then Handle1NNNOpcode cpu
  else if fam = 0x2 then Handle2NNNOpcode cpu
  else if fam = 0x3 then Handle3XNNOpcode cpu
  else if fam = 0x4 then Handle4XNNOpcode cpu
  else if fam = 0x5 then Handle5XY0Opcode cpu
  else if fam = 0x6 then Handle6XNNOpcode cpu
  else if fam = 0x7 then Handle7xNNOpcode cpu
  else if fam = 0x8 then Handle8XYOpcodes cpu
  else if fam = 0x9 then Handle9XY0Opcode cpu
  else if fam = 0xA then HandleANNNOpcode cpu
  else if fam = 0xB then HandleBNNNOpcode cpu
  else if fam = 0xC then HandleCXNNOpcode cpu rand_int
  else if fam = 0xD then HandleDXYNOpcode cpu
  else if fam = 0xE then HandleEXOpcodes cpu
  else if fam = 0xF then HandleFXOpcodes cpu
  else .err cpu (toString cpu.Opcode ++ ": Invalid Opcode in HandleOpcode()")

/-! ## Specification-side definitions -/

/-- An outcome which, when it is a returned error, hands back `cpu` untouched. -/
def Atomic (cpu : Cpu) (o : Outcome) : Prop :=
  ∀ c msg, o = .err c msg → c = cpu

/-- Drawing changes nothing but the registers and the display. -/
def DrawFrame (c c' : Cpu) : Prop :=
  c' = { c with V := c'.V, Display := c'.Display }

/-- The instruction words that set PC directly: families `0x1`, `0x2`, `0xB`
and the word `00EE`. -/
def isJumpCallReturn (op : Nat) : Prop :=
  (op &&& 0xF000) >>> 12 = 0x1 ∨ (op &&& 0xF000) >>> 12 = 0x2 ∨
  (op &&& 0xF000) >>> 12 = 0xB ∨ op = 0x00EE

/-- The word is `FX0A` and no key is pressed. -/
def keyWaitIdle (cpu : Cpu) : Prop :=
  (cpu.Opcode &&& 0xF000) >>> 12 = 0xF ∧ cpu.Opcode &&& 0x00FF = 0x0A ∧
  ∀ k, k < NUM_KEYS → cpu.Keypad k = 0

/-- The skip conditions of the specification: `3XNN` with `V[X] = NN`, `4XNN`
with `V[X] != NN`, `5XY0` with `V[X] = V[Y]`, `9XY0` with `V[X] != V[Y]`,
`EX9E` with `Keypad[V[X]]` nonzero, `EXA1` with `Keypad[V[X]]` zero. -/
def skipCondition (cpu : Cpu) : Prop :=
  ((cpu.Opcode &&& 0xF000) >>> 12 = 0x3 ∧
    cpu.V ((cpu.Opcode &&& 0x0F00) >>> 8) = cpu.Opcode &&& 0x00FF) ∨
  ((cpu.Opcode &&& 0xF000) >>> 12 = 0x4 ∧
    cpu.V ((cpu.Opcode &&& 0x0F00) >>> 8) ≠ cpu.Opcode &&& 0x00FF) ∨
  ((cpu.Opcode &&& 0xF000) >>> 12 = 0x5 ∧ cpu.Opcode &&& 0x000F = 0 ∧
    cpu.V ((cpu.Opcode &&& 0x0F00) >>> 8) = cpu.V ((cpu.Opcode &&& 0x00F0) >>> 4)) ∨
  ((cpu.Opcode &&& 0xF000) >>> 12 = 0x9 ∧ cpu.Opcode &&& 0x000F = 0 ∧
    cpu.V ((cpu.Opcode &&& 0x0F00) >>> 8) ≠ cpu.V ((cpu.Opcode &&& 0x00F0) >>> 4)) ∨
  ((cpu.Opcode &&& 0xF000) >>> 12 = 0xE ∧ cpu.Opcode &&& 0x00FF = 0x9E ∧
    cpu.Keypad (cpu.V ((cpu.Opcode &&& 0x0F00) >>> 8)) ≠ 0) ∨
  ((cpu.Opcode &&& 0xF000) >>> 12 = 0xE ∧ cpu.Opcode &&& 0x00FF = 0xA1 ∧
    cpu.Keypad (cpu.V ((cpu.Opcode &&& 0x0F00) >>> 8)) = 0)

/-- An outcome which, when it is a success, has PC equal to `p`. -/
def StepsTo (p : Nat) (o : Outcome) : Prop :=
  ∀ c, o = .ok c → c.PC = p

instance skipCondition_decidable (cpu : Cpu) : Decidable (skipCondition cpu) := by
  unfold skipCondition
  infer_instance

instance isJumpCallReturn_decidable (op : Nat) : Decidable (isJumpCallReturn op) := by
  unfold isJumpCallReturn
  infer_instance

/-! ## The cells a sprite touches -/

/-- Display indices flipped by one sprite row, in loop order: one per set bit
of `pixel` among the columns `cols`. -/
def rowCells (x y curr_y pixel : Nat) (cols : List Nat) : List Nat :=
  (cols.filter (fun curr_x => pixel &&& (0x80 >>> curr_x) ≠ 0)).map
    (fun curr_x => u16 (x + curr_x + (y + curr_y) * NUM_COLS))

/-- Display indices flipped by the sprite rows `rows` read from `mem` at `i`. -/
def spriteCells (mem : Nat → Nat) (i x y : Nat) (rows : List Nat) : List Nat :=
  rows.flatMap (fun curr_y => rowCells x y curr_y (mem (u16 (i + curr_y))) (List.range 8))

/-- The operand `V[X]` of the word being executed. -/
def regX (cpu : Cpu) : Nat := cpu.V ((cpu.Opcode &&& 0x0F00) >>> 8)

/-- The operand `V[Y]` of the word being executed. -/
def regY (cpu : Cpu) : Nat := cpu.V ((cpu.Opcode &&& 0x00F0) >>> 4)

/-- The operand `N` (low nibble) of the word being executed: the sprite height. -/
def rowsN (cpu : Cpu) : Nat := cpu.Opcode &&& 0x000F

/-- Sprite bit at `(row, col)`: bit `7 - col` of `Memory[I + row]`. -/
def spriteBit (cpu : Cpu) (row col : Nat) : Bool :=
  (cpu.Memory (cpu.I + row)).testBit (7 - col)

/-- Row-major display index of sprite pixel `(row, col)`, no wrap-around. -/
def cellIndex (cpu : Cpu) (row col : Nat) : Nat :=
  regX cpu + col + (regY cpu + row) * NUM_COLS

/-- Display index of sprite pixel `(row, col)` with each coordinate reduced
modulo its own dimension, as the specification words it. -/
def wrappedIndex (cpu : Cpu) (row col : Nat) : Nat :=
  (regX cpu + col) % NUM_COLS + ((regY cpu + row) % NUM_ROWS) * NUM_COLS

/-- Every sprite byte `Memory[I + row]`, `row < N`, lies inside memory. -/
def spriteInMemory (cpu : Cpu) : Prop :=
  ∀ row, row < rowsN cpu → cpu.I + row < MEMORY_SIZE

/-- Every pixel of the 8×N sprite lies inside the 64×32 display. -/
def spriteInDisplay (cpu : Cpu) : Prop :=
  ∀ row, row < rowsN cpu → ∀ col, col < 8 →
    regX cpu + col < NUM_COLS ∧ regY cpu + row < NUM_ROWS

/-- Cell `i` is the unwrapped position of a set sprite bit. -/
def spriteHits (cpu : Cpu) (i : Nat) : Prop :=
  ∃ row, row < rowsN cpu ∧ ∃ col, col < 8 ∧ spriteBit cpu row col = true ∧
    i = cellIndex cpu row col

/-- Some set sprite bit lands on a cell that holds 1. -/
def spriteCollides (cpu : Cpu) : Prop :=
  ∃ row, row < rowsN cpu ∧ ∃ col, col < 8 ∧ spriteBit cpu row col = true ∧
    cpu.Display (cellIndex cpu row col) = 1

instance spriteInMemory_decidable (cpu : Cpu) : Decidable (spriteInMemory cpu) := by
  unfold spriteInMemory
  infer_instance

instance spriteInDisplay_decidable (cpu : Cpu) : Decidable (spriteInDisplay cpu) := by
  unfold spriteInDisplay
  infer_instance

/-! ## Concrete machine states -/

/-- A freshly loaded machine: everything zero, PC at the load address `0x200`. -/
def cpu0 : Cpu :=
  { Memory := fun _ => 0, V := fun _ => 0, I := 0, PC := 0x200, Stack := fun _ => 0, SP := 0,
    DelayTimer := 0, SoundTimer := 0, Display := fun _ => 0, Keypad := fun _ => 0,
    ShouldDraw := false, Opcode := 0 }

/-- Keys 1 and 2 are held down while `F00A` executes. -/
def cpuTwoKeys : Cpu :=
  { cpu0 with Opcode := 0xF00A, Keypad := fun k => if k = 1 ∨ k = 2 then 1 else 0 }

/-- `V[0] = 200`, `V[1] = 100`, the rest zero. -/
def regsAB : Nat → Nat := fun r => if r = 0 then 200 else if r = 1 then 100 else 0

/-- Memory holding the one-row sprite `0xFF` at address `0x300`. -/
def memSprite : Nat → Nat := fun a => if a = 0x300 then 0xFF else 0

/-- `D011` about to draw the 8×1 sprite `0xFF` at `(V[0], V[1]) = (0, 0)` on a
display whose first eight cells are already on. -/
def cpuSprite : Cpu :=
  { cpu0 with
    Memory := memSprite, I := 0x300, Opcode := 0xD011
    Display := fun i => if i < 8 then 1 else 0 }

/-- `D011` about to draw the 8×1 sprite `0xFF` at `(V[0], V[1]) = (60, 0)` on a
cleared display: the last four columns pass the right edge. -/
def cpuWrap : Cpu :=
  { cpu0 with
    Memory := memSprite, I := 0x300, Opcode := 0xD011
    V := fun r => if r = 0 then 60 else 0 }

/-- `D011` about to draw the 8×1 sprite `0xFF` at `(V[0], V[1]) = (0, 32)`, one
row below the bottom edge. -/
def cpuBelow : Cpu :=
  { cpu0 with
    Memory := memSprite, I := 0x300, Opcode := 0xD011
    V := fun r => if r = 1 then 32 else 0 }

/-- `00EE` with one return address `0x300` on the stack. -/
def cpuRet : Cpu :=
  { cpu0 with Opcode := 0x00EE, SP := 1, Stack := fun k => if k = 0 then 0x300 else 0 }

/-- `00EE` with a stack depth beyond the capacity of the stack. -/
def cpuDeep : Cpu := { cpu0 with Opcode := 0x00EE, SP := 17 }

/-- `F155` with `I` on the last byte of memory: `V[0] = 200`, `V[1] = 100`. -/
def cpuEdge : Cpu := { cpu0 with Opcode := 0xF155, I := 4095, V := regsAB }

/-- `E09E` with `V[0] = 16`, one past the last key. -/
def cpuBadKey : Cpu := { cpu0 with Opcode := 0xE09E, V := fun _ => 16 }

/-- `D012` with `I` on the last byte of memory, which holds `0xFF`, and the
flag register set: the second sprite row lies past the end of memory. -/
def cpuPastEnd : Cpu :=
  { cpu0 with
    Opcode := 0xD012, I := 4095
    Memory := fun a => if a = 4095 then 0xFF else 0
    V := fun r => if r = 15 then 1 else 0 }

/-- `F033` with `V[0] = 157` and `I = 0x400`. -/
def cpuBcd : Cpu := { cpu0 with Opcode := 0xF033, I := 0x400, V := fun _ => 157 }

/-- `F155` with `V[0] = 200`, `V[1] = 100` and `I = 0x400`. -/
def cpuStore : Cpu := { cpu0 with Opcode := 0xF155, I := 0x400, V := regsAB }

/-! ## Decoding facts -/

theorem and_mask_le (op m : Nat) : op &&& m ≤ m := Nat.and_le_right

theorem field_x_lt (op : Nat) : (op &&& 0x0F00) >>> 8 < 16 := by
  have h := and_mask_le op 0x0F00
  rw [Nat.shiftRight_eq_div_pow]
  omega

theorem field_y_lt (op : Nat) : (op &&& 0x00F0) >>> 4 < 16 := by
  have h := and_mask_le op 0x00F0
  rw [Nat.shiftRight_eq_div_pow]
  omega

theorem field_fam_lt (op : Nat) : (op &&& 0xF000) >>> 12 < 16 := by
  have h := and_mask_le op 0xF000
  rw [Nat.shiftRight_eq_div_pow]
  omega

theorem field_n_lt (op : Nat) : op &&& 0x000F < 16 := by
  have h := and_mask_le op 0x000F
  omega

theorem u8_field_nn (op : Nat) : u8 (op &&& 0x00FF) = op &&& 0x00FF := by
  have h := and_mask_le op 0x00FF
  unfold u8
  omega

theorem u16_add_two_two (p : Nat) : u16 (u16 (p + 2) + 2) = u16 (p + 4) := by
  unfold u16
  omega

theorem u16_two_ne_four (p : Nat) : u16 (p + 2) ≠ u16 (p + 4) := by
  unfold u16
  omega

/-! ## The key scan of `FX0A` -/

theorem scanKey_fold_frame (x : Nat) (l : List Nat) (acc : Bool × Cpu) :
    (l.foldl (scanKey x) acc).2.PC = acc.2.PC ∧
    (l.foldl (scanKey x) acc).2.Keypad = acc.2.Keypad := by
  induction l generalizing acc with
  | nil => simp
  | cons i l ih =>
    rw [List.foldl_cons]
    obtain ⟨h1, h2⟩ := ih (scanKey x acc i)
    rw [h1, h2]
    unfold scanKey
    split_ifs <;> simp

theorem scanKey_fold_none (x : Nat) (l : List Nat) (acc : Bool × Cpu)
    (h : ∀ i ∈ l, acc.2.Keypad i = 0) : l.foldl (scanKey x) acc = acc := by
  induction l generalizing acc with
  | nil => simp
  | cons i l ih =>
    rw [List.foldl_cons]
    have hi : scanKey x acc i = acc := by
      unfold scanKey
      simp [h i (List.mem_cons_self i l)]
    rw [hi]
    exact ih acc (fun j hj => h j (List.mem_cons_of_mem i hj))

theorem scanKey_fold_pressed (x : Nat) (l : List Nat) (acc : Bool × Cpu) :
    (l.foldl (scanKey x) acc).1 = true ↔ acc.1 = true ∨ ∃ i ∈ l, acc.2.Keypad i ≠ 0 := by
  induction l generalizing acc with
  | nil => simp
  | cons i l ih =>
    rw [List.foldl_cons, ih]
    have hk : (scanKey x acc i).2.Keypad = acc.2.Keypad := by
      unfold scanKey
      split_ifs <;> simp
    rw [hk]
    by_cases hi : acc.2.Keypad i = 0
    · have : scanKey x acc i = acc := by unfold scanKey; simp [hi]
      rw [this]
      simp [hi]
    · have : (scanKey x acc i).1 = true := by unfold scanKey; simp [hi]
      rw [this]
      simp only [true_or, true_iff]
      exact Or.inr ⟨i, List.mem_cons_self i l, hi⟩

/-! ## Dispatch, and errors that leave the state alone -/

theorem HandleOpcode_dispatch (cpu : Cpu) (rand_int : Nat) (P : Outcome → Prop)
    (h0 : (cpu.Opcode &&& 0xF000) >>> 12 = 0x0 → P (Handle00Opcodes cpu))
    (h1 : (cpu.Opcode &&& 0xF000) >>> 12 = 0x1 → P (Handle1NNNOpcode cpu))
    (h2 : (cpu.Opcode &&& 0xF000) >>> 12 = 0x2 → P (Handle2NNNOpcode cpu))
    (h3 : (cpu.Opcode &&& 0xF000) >>> 12 = 0x3 → P (Handle3XNNOpcode cpu))
    (h4 : (cpu.Opcode &&& 0xF000) >>> 12 = 0x4 → P (Handle4XNNOpcode cpu))
    (h5 : (cpu.Opcode &&& 0xF000) >>> 12 = 0x5 → P (Handle5XY0Opcode cpu))
    (h6 : (cpu.Opcode &&& 0xF000) >>> 12 = 0x6 → P (Handle6XNNOpcode cpu))
    (h7 : (cpu.Opcode &&& 0xF000) >>> 12 = 0x7 → P (Handle7xNNOpcode cpu))
    (h8 : (cpu.Opcode &&& 0xF000) >>> 12 = 0x8 → P (Handle8XYOpcodes cpu))
    (h9 : (cpu.Opcode &&& 0xF000) >>> 12 = 0x9 → P (Handle9XY0Opcode cpu))
    (hA : (cpu.Opcode &&& 0xF000) >>> 12 = 0xA → P (HandleANNNOpcode cpu))
    (hB : (cpu.Opcode &&& 0xF000) >>> 12 = 0xB → P (HandleBNNNOpcode cpu))
    (hC : (cpu.Opcode &&& 0xF000) >>> 12 = 0xC → P (HandleCXNNOpcode cpu rand_int))
    (hD : (cpu.Opcode &&& 0xF000) >>> 12 = 0xD → P (HandleDXYNOpcode cpu))
    (hE : (cpu.Opcode &&& 0xF000) >>> 12 = 0xE → P (HandleEXOpcodes cpu))
    (hF : (cpu.Opcode &&& 0xF000) >>> 12 = 0xF → P (HandleFXOpcodes cpu)) :
    P (HandleOpcode cpu rand_int) := by
  have hlt := field_fam_lt cpu.Opcode
  unfold HandleOpcode
  generalize (cpu.Opcode &&& 0xF000) >>> 12 = fam at *
  interval_cases fam
  · exact h0 rfl
  · exact h1 rfl
  · exact h2 rfl
  · exact h3 rfl
  · exact h4 rfl
  · exact h5 rfl
  · exact h6 rfl
  · exact h7 rfl
  · exact h8 rfl
  · exact h9 rfl
  · exact hA rfl
  · exact hB rfl
  · exact hC rfl
  · exact hD rfl
  · exact hE rfl
  · exact hF rfl

theorem atomic_ok (cpu c : Cpu) : Atomic cpu (.ok c) := by
  intro c' msg h
  cases h

theorem atomic_panic (cpu : Cpu) : Atomic cpu .panic := by
  intro c' msg h
  cases h

theorem atomic_err (cpu : Cpu) (msg : String) : Atomic cpu (.err cpu msg) := by
  intro c' msg' h
  injection h with h1 h2
  exact h1.symm

theorem atomic_ite (cpu : Cpu) (c : Prop) {inst : Decidable c} (a b : Outcome)
    (ha : Atomic cpu a) (hb : Atomic cpu b) : Atomic cpu (@ite _ c inst a b) := by
  by_cases h : c
  · rw [if_pos h]; exact ha
  · rw [if_neg h]; exact hb

theorem Handle00Opcodes_atomic (cpu : Cpu) : Atomic cpu (Handle00Opcodes cpu) := by
  unfold Handle00Opcodes
  repeat (first | apply atomic_ite | apply atomic_err | apply atomic_ok | apply atomic_panic)

theorem Handle2NNNOpcode_atomic (cpu : Cpu) : Atomic cpu (Handle2NNNOpcode cpu) := by
  unfold Handle2NNNOpcode
  repeat (first | apply atomic_ite | apply atomic_err | apply atomic_ok | apply atomic_panic)

theorem Handle5XY0Opcode_atomic (cpu : Cpu) : Atomic cpu (Handle5XY0Opcode cpu) := by
  unfold Handle5XY0Opcode
  repeat (first | apply atomic_ite | apply atomic_err | apply atomic_ok | apply atomic_panic)

theorem Handle9XY0Opcode_atomic (cpu : Cpu) : Atomic cpu (Handle9XY0Opcode cpu) := by
  unfold Handle9XY0Opcode
  repeat (first | apply atomic_ite | apply atomic_err | apply atomic_ok | apply atomic_panic)

theorem Handle8XYOpcodes_atomic (cpu : Cpu) : Atomic cpu (Handle8XYOpcodes cpu) := by
  unfold Handle8XYOpcodes
  repeat (first | apply atomic_ite | apply atomic_err | apply atomic_ok | apply atomic_panic)

theorem HandleEXOpcodes_atomic (cpu : Cpu) : Atomic cpu (HandleEXOpcodes cpu) := by
  unfold HandleEXOpcodes
  repeat (first | apply atomic_ite | apply atomic_err | apply atomic_ok | apply atomic_panic)

theorem HandleFXOpcodes_atomic (cpu : Cpu) : Atomic cpu (HandleFXOpcodes cpu) := by
  unfold HandleFXOpcodes
  repeat (first | apply atomic_ite | apply atomic_err | apply atomic_ok | apply atomic_panic)

theorem HandleDXYNOpcode_atomic (cpu : Cpu) : Atomic cpu (HandleDXYNOpcode cpu) := by
  unfold HandleDXYNOpcode
  dsimp only
  split
  · exact atomic_panic cpu
  · exact atomic_ok cpu _

theorem HandleOpcode_atomic (cpu : Cpu) (rand_int : Nat) :
    Atomic cpu (HandleOpcode cpu rand_int) := by
  apply HandleOpcode_dispatch cpu rand_int (Atomic cpu) <;> intro _
  · exact Handle00Opcodes_atomic cpu
  · exact atomic_ok cpu _
  · exact Handle2NNNOpcode_atomic cpu
  · exact atomic_ite _ _ _ _ (atomic_ok cpu _) (atomic_ok cpu _)
  · exact atomic_ite _ _ _ _ (atomic_ok cpu _) (atomic_ok cpu _)
  · exact Handle5XY0Opcode_atomic cpu
  · exact atomic_ok cpu _
  · exact atomic_ok cpu _
  · exact Handle8XYOpcodes_atomic cpu
  · exact Handle9XY0Opcode_atomic cpu
  · exact atomic_ok cpu _
  · exact atomic_ok cpu _
  · exact atomic_ok cpu _
  · exact HandleDXYNOpcode_atomic cpu
  · exact HandleEXOpcodes_atomic cpu
  · exact HandleFXOpcodes_atomic cpu

/-! ## Frame of the draw loops -/

theorem drawFrame_refl (c : Cpu) : DrawFrame c c := rfl

theorem drawFrame_trans (a b c : Cpu) (h1 : DrawFrame a b) (h2 : DrawFrame b c) :
    DrawFrame a c := by
  unfold DrawFrame at *
  rw [h2, h1]

theorem drawPixel_frame (c : Cpu) (idx : Nat) : DrawFrame c (drawPixel c idx) := by
  unfold DrawFrame drawPixel
  split_ifs <;> rfl

theorem foldlM_frame (f : Cpu → Nat → Option Cpu)
    (hstep : ∀ c i c', f c i = some c' → DrawFrame c c') :
    ∀ (l : List Nat) (c c' : Cpu), l.foldlM f c = some c' → DrawFrame c c' := by
  intro l
  induction l with
  | nil =>
    intro c c' h
    simp only [List.foldlM_nil, pure, Option.some.injEq] at h
    subst h
    exact drawFrame_refl c
  | cons i l ih =>
    intro c c' h
    rw [List.foldlM_cons] at h
    cases h1 : f c i with
    | none => rw [h1] at h; cases h
    | some c1 =>
      rw [h1] at h
      exact drawFrame_trans c c1 c' (hstep c i c1 h1) (ih c1 c' h)

theorem drawCol_frame (x y curr_y pixel : Nat) (c : Cpu) (curr_x : Nat) (c' : Cpu)
    (h : drawCol x y curr_y pixel c curr_x = some c') : DrawFrame c c' := by
  unfold drawCol at h
  dsimp only at h
  split_ifs at h
  · injection h with h; subst h; exact drawPixel_frame c _
  · injection h with h; subst h; exact drawFrame_refl c

theorem drawRow_frame (x y : Nat) (c : Cpu) (curr_y : Nat) (c' : Cpu)
    (h : drawRow x y c curr_y = some c') : DrawFrame c c' := by
  unfold drawRow at h
  dsimp only at h
  split_ifs at h
  exact foldlM_frame _ (drawCol_frame x y curr_y _) _ c c' h

theorem drawSprite_frame (x y n : Nat) (c c' : Cpu)
    (h : (List.range n).foldlM (drawRow x y) c = some c') : DrawFrame c c' :=
  foldlM_frame _ (drawRow_frame x y) _ c c' h

/-! ## Program-counter stepping -/

theorem stepsTo_ok (p : Nat) (c : Cpu) (h : c.PC = p) : StepsTo p (.ok c) := by
  intro c' h'
  injection h' with h'
  rw [← h']; exact h

theorem stepsTo_err (p : Nat) (c : Cpu) (msg : String) : StepsTo p (.err c msg) := by
  intro c' h'
  cases h'

theorem stepsTo_panic (p : Nat) : StepsTo p .panic := by
  intro c' h'
  cases h'

theorem stepsTo_ite (p : Nat) (c : Prop) {inst : Decidable c} (a b : Outcome)
    (ha : c → StepsTo p a) (hb : ¬ c → StepsTo p b) : StepsTo p (@ite _ c inst a b) := by
  by_cases h : c
  · rw [if_pos h]; exact ha h
  · rw [if_neg h]; exact hb h

theorem Handle00Opcodes_steps (cpu : Cpu) (h : cpu.Opcode ≠ 0x00EE) :
    StepsTo (u16 (cpu.PC + 2)) (Handle00Opcodes cpu) := by
  unfold Handle00Opcodes
  refine stepsTo_ite _ _ _ _ (fun _ => stepsTo_ok _ _ rfl) (fun _ => ?_)
  rw [if_neg h]
  exact stepsTo_err _ _ _

theorem Handle8XYOpcodes_steps (cpu : Cpu) :
    StepsTo (u16 (cpu.PC + 2)) (Handle8XYOpcodes cpu) := by
  unfold Handle8XYOpcodes
  repeat (first | (apply stepsTo_ite <;> intro _) | apply stepsTo_err | exact stepsTo_ok _ _ rfl)

theorem HandleDXYNOpcode_steps (cpu : Cpu) :
    StepsTo (u16 (cpu.PC + 2)) (HandleDXYNOpcode cpu) := by
  unfold HandleDXYNOpcode
  dsimp only
  split
  · exact stepsTo_panic _
  · next c1 h1 =>
    apply stepsTo_ok
    have := drawSprite_frame _ _ _ _ _ h1
    have hpc := congrArg Cpu.PC this
    dsimp only at hpc
    rw [hpc]

theorem HandleFXOpcodes_steps (cpu : Cpu)
    (h : ¬ (cpu.Opcode &&& 0x00FF = 0x0A ∧ ∀ k, k < NUM_KEYS → cpu.Keypad k = 0)) :
    StepsTo (u16 (cpu.PC + 2)) (HandleFXOpcodes cpu) := by
  unfold HandleFXOpcodes
  dsimp only
  refine stepsTo_ite _ _ _ _ (fun _ => stepsTo_ok _ _ rfl) (fun _ => ?_)
  refine stepsTo_ite _ _ _ _ (fun hA => ?_) (fun _ => ?_)
  · refine stepsTo_ite _ _ _ _ (fun hr => ?_) (fun _ => ?_)
    · exfalso
      apply h
      refine ⟨hA, fun k hk => ?_⟩
      by_contra hne
      have hp := (scanKey_fold_pressed ((cpu.Opcode &&& 0x0F00) >>> 8)
        (List.range NUM_KEYS) (false, cpu)).2 (Or.inr ⟨k, List.mem_range.2 hk, hne⟩)
      rw [hr] at hp
      cases hp
    · apply stepsTo_ok
      rw [(scanKey_fold_frame _ _ _).1]
  repeat (first | (apply stepsTo_ite <;> intro _) | apply stepsTo_err | apply stepsTo_panic | exact stepsTo_ok _ _ rfl)

theorem HandleEXOpcodes_steps (cpu : Cpu) :
    StepsTo (if (cpu.Opcode &&& 0x00FF = 0x9E ∧
        cpu.Keypad (cpu.V ((cpu.Opcode &&& 0x0F00) >>> 8)) ≠ 0) ∨
        (cpu.Opcode &&& 0x00FF = 0xA1 ∧
        cpu.Keypad (cpu.V ((cpu.Opcode &&& 0x0F00) >>> 8)) = 0)
      then u16 (cpu.PC + 4) else u16 (cpu.PC + 2)) (HandleEXOpcodes cpu) := by
  unfold HandleEXOpcodes
  dsimp only
  refine stepsTo_ite _ _ _ _ (fun h9 => ?_) (fun h9 => ?_)
  · refine stepsTo_ite _ _ _ _ (fun _ => ?_) (fun _ => stepsTo_panic _)
    refine stepsTo_ite _ _ _ _ (fun hk => ?_) (fun hk => ?_)
    · apply stepsTo_ok
      simp [h9, hk, u16_add_two_two]
    · apply stepsTo_ok
      simp [h9, hk]
  · refine stepsTo_ite _ _ _ _ (fun hA => ?_) (fun _ => stepsTo_err _ _ _)
    refine stepsTo_ite _ _ _ _ (fun _ => ?_) (fun _ => stepsTo_panic _)
    refine stepsTo_ite _ _ _ _ (fun hk => ?_) (fun hk => ?_)
    · apply stepsTo_ok
      simp [hA, hk, u16_add_two_two]
    · apply stepsTo_ok
      simp [hA, hk]

theorem HandleOpcode_steps (cpu : Cpu) (rand_int : Nat)
    (hj : ¬ isJumpCallReturn cpu.Opcode) (hk : ¬ keyWaitIdle cpu) :
    StepsTo (if skipCondition cpu then u16 (cpu.PC + 4) else u16 (cpu.PC + 2))
      (HandleOpcode cpu rand_int) := by
  unfold isJumpCallReturn at hj
  push_neg at hj
  obtain ⟨hj1, hj2, hjB, hjE⟩ := hj
  apply HandleOpcode_dispatch cpu rand_int <;> intro hfam
  · have hs : ¬ skipCondition cpu := by simp [skipCondition, hfam]
    rw [if_neg hs]
    exact Handle00Opcodes_steps cpu hjE
  · exact absurd hfam hj1
  · exact absurd hfam hj2
  · unfold Handle3XNNOpcode
    rw [u8_field_nn]
    refine stepsTo_ite _ _ _ _ (fun h => stepsTo_ok _ _ ?_) (fun h => stepsTo_ok _ _ ?_)
    · simp [skipCondition, hfam, h]
    · simp [skipCondition, hfam, h]
  · unfold Handle4XNNOpcode
    rw [u8_field_nn]
    refine stepsTo_ite _ _ _ _ (fun h => stepsTo_ok _ _ ?_) (fun h => stepsTo_ok _ _ ?_)
    · simp [skipCondition, hfam, h]
    · simp [skipCondition, hfam, not_not.1 h]
  · unfold Handle5XY0Opcode
    refine stepsTo_ite _ _ _ _ (fun _ => stepsTo_err _ _ _) (fun h0 => ?_)
    refine stepsTo_ite _ _ _ _ (fun h => stepsTo_ok _ _ ?_) (fun h => stepsTo_ok _ _ ?_)
    · simp [skipCondition, hfam, h, not_not.1 h0]
    · simp [skipCondition, hfam, h]
  · have hs : ¬ skipCondition cpu := by simp [skipCondition, hfam]
    rw [if_neg hs]
    exact stepsTo_ok _ _ rfl
  · have hs : ¬ skipCondition cpu := by simp [skipCondition, hfam]
    rw [if_neg hs]
    exact stepsTo_ok _ _ rfl
  · have hs : ¬ skipCondition cpu := by simp [skipCondition, hfam]
    rw [if_neg hs]
    exact Handle8XYOpcodes_steps cpu
  · unfold Handle9XY0Opcode
    refine stepsTo_ite _ _ _ _ (fun _ => stepsTo_err _ _ _) (fun h0 => ?_)
    refine stepsTo_ite _ _ _ _ (fun h => stepsTo_ok _ _ ?_) (fun h => stepsTo_ok _ _ ?_)
    · simp [skipCondition, hfam, h, not_not.1 h0]
    · simp [skipCondition, hfam, not_not.1 h]
  · have hs : ¬ skipCondition cpu := by simp [skipCondition, hfam]
    rw [if_neg hs]
    exact stepsTo_ok _ _ rfl
  · exact absurd hfam hjB
  · have hs : ¬ skipCondition cpu := by simp [skipCondition, hfam]
    rw [if_neg hs]
    exact stepsTo_ok _ _ rfl
  · have hs : ¬ skipCondition cpu := by simp [skipCondition, hfam]
    rw [if_neg hs]
    exact HandleDXYNOpcode_steps cpu
  · have h := HandleEXOpcodes_steps cpu
    have hs : skipCondition cpu ↔
        ((cpu.Opcode &&& 0x00FF = 0x9E ∧
          cpu.Keypad (cpu.V ((cpu.Opcode &&& 0x0F00) >>> 8)) ≠ 0) ∨
        (cpu.Opcode &&& 0x00FF = 0xA1 ∧
          cpu.Keypad (cpu.V ((cpu.Opcode &&& 0x0F00) >>> 8)) = 0)) := by
      simp [skipCondition, hfam]
    by_cases hc : skipCondition cpu
    · rw [if_pos hc]
      rw [if_pos (hs.1 hc)] at h
      exact h
    · rw [if_neg hc]
      rw [if_neg (fun h' => hc (hs.2 h'))] at h
      exact h
  · have hs : ¬ skipCondition cpu := by simp [skipCondition, hfam]
    rw [if_neg hs]
    exact HandleFXOpcodes_steps cpu (fun h => hk ⟨hfam, h.1, h.2⟩)

/-! ## Well-formed states, `FX0A` in closed form -/

theorem cpu0_wf (c : Cpu) (hV : ∀ r, r < 16 → c.V r < 256) (hop : c.Opcode < 65536)
    (hrest : c = { cpu0 with V := c.V, Opcode := c.Opcode }) : WF c := by
  rw [hrest]
  constructor <;> intros <;> simp [cpu0] <;> first | assumption | exact hV _ ‹_›

theorem HandleOpcode_famF (cpu : Cpu) (rand_int : Nat)
    (h : (cpu.Opcode &&& 0xF000) >>> 12 = 0xF) :
    HandleOpcode cpu rand_int = HandleFXOpcodes cpu := by
  unfold HandleOpcode
  simp only [h]
  rfl

theorem HandleFXOpcodes_keywait (cpu : Cpu) (h : cpu.Opcode &&& 0x00FF = 0x0A) :
    HandleFXOpcodes cpu =
      if ((List.range NUM_KEYS).foldl (scanKey ((cpu.Opcode &&& 0x0F00) >>> 8)) (false, cpu)).1
          = false
      then .ok ((List.range NUM_KEYS).foldl (scanKey ((cpu.Opcode &&& 0x0F00) >>> 8)) (false, cpu)).2
      else .ok { ((List.range NUM_KEYS).foldl
          (scanKey ((cpu.Opcode &&& 0x0F00) >>> 8)) (false, cpu)).2 with
        PC := u16 (((List.range NUM_KEYS).foldl
          (scanKey ((cpu.Opcode &&& 0x0F00) >>> 8)) (false, cpu)).2.PC + 2) } := by
  unfold HandleFXOpcodes
  dsimp only
  rw [if_neg (by rw [h]; decide), if_pos h]

theorem scanKey_fold_shape (x : Nat) (l : List Nat) (acc : Bool × Cpu) :
    (l.foldl (scanKey x) acc).2 = { acc.2 with V := (l.foldl (scanKey x) acc).2.V } ∧
    ∀ r, r ≠ x → (l.foldl (scanKey x) acc).2.V r = acc.2.V r := by
  induction l generalizing acc with
  | nil => exact ⟨rfl, fun _ _ => rfl⟩
  | cons i l ih =>
    rw [List.foldl_cons]
    obtain ⟨h1, h2⟩ := ih (scanKey x acc i)
    have h3 : (scanKey x acc i).2 = { acc.2 with V := (scanKey x acc i).2.V } ∧
        ∀ r, r ≠ x → (scanKey x acc i).2.V r = acc.2.V r := by
      unfold scanKey
      split_ifs
      · exact ⟨rfl, fun r hr => Function.update_noteq hr _ _⟩
      · exact ⟨rfl, fun _ _ => rfl⟩
    constructor
    · rw [h1, h3.1]
    · intro r hr
      rw [h2 r hr, h3.2 r hr]

theorem scanKey_fold_highest (x : Nat) (cpu : Cpu) (n k : Nat) (hk : k < n)
    (hpress : cpu.Keypad k ≠ 0) (hmax : ∀ j, k < j → j < n → cpu.Keypad j = 0) :
    (List.range n).foldl (scanKey x) (false, cpu) =
      (true, { cpu with V := Function.update cpu.V x (u8 k) }) := by
  induction n with
  | zero => omega
  | succ n ih =>
    rw [List.range_succ, List.foldl_append, List.foldl_cons, List.foldl_nil]
    by_cases hkn : k = n
    · subst hkn
      obtain ⟨h1, h2⟩ := scanKey_fold_shape x (List.range k) (false, cpu)
      have hK := (scanKey_fold_frame x (List.range k) (false, cpu)).2
      generalize (List.range k).foldl (scanKey x) (false, cpu) = acc at h1 h2 hK
      unfold scanKey
      dsimp only at h1 h2 hK
      have hV : Function.update acc.2.V x (u8 k) = Function.update cpu.V x (u8 k) := by
        funext r
        by_cases hr : r = x
        · subst hr; simp
        · simp [Function.update_noteq hr, h2 r hr]
      rw [hK, if_pos hpress, hV, h1]
    · rw [ih (by omega) (fun j h1 h2 => hmax j h1 (by omega))]
      unfold scanKey
      dsimp only
      rw [if_neg (not_not.2 (hmax n (by omega) (by omega)))]

/-! ## The draw loops as a fold over the touched cells -/

theorem drawPixel_fold_frame (l : List Nat) (c : Cpu) : DrawFrame c (l.foldl drawPixel c) := by
  induction l generalizing c with
  | nil => exact drawFrame_refl c
  | cons i l ih =>
    rw [List.foldl_cons]
    exact drawFrame_trans _ _ _ (drawPixel_frame c i) (ih _)

theorem drawCol_fold (x y curr_y pixel : Nat) (cols : List Nat) (c : Cpu)
    (h : ∀ curr_x ∈ cols, pixel &&& (0x80 >>> curr_x) ≠ 0 →
      u16 (x + curr_x + (y + curr_y) * NUM_COLS) < DISPLAY_SIZE) :
    cols.foldlM (drawCol x y curr_y pixel) c =
      some ((rowCells x y curr_y pixel cols).foldl drawPixel c) := by
  induction cols generalizing c with
  | nil => rfl
  | cons k cols ih =>
    have ht := fun j hj => h j (List.mem_cons_of_mem k hj)
    rw [List.foldlM_cons]
    unfold drawCol rowCells
    by_cases hb : pixel &&& (0x80 >>> k) ≠ 0
    · have hk := h k (List.mem_cons_self k cols) hb
      simp only [hb, hk, if_true, ne_eq, not_false_eq_true, List.filter_cons_of_pos,
        decide_True, List.map_cons, List.foldl_cons, Option.bind_eq_bind, Option.some_bind]
      exact ih _ ht
    · simp only [hb, if_false, ne_eq, not_false_eq_true, List.filter_cons_of_neg,
        decide_False, Option.bind_eq_bind, Option.some_bind, Bool.false_eq_true]
      exact ih _ ht

theorem drawRow_fold (x y : Nat) (rows : List Nat) (c : Cpu)
    (hmem : ∀ curr_y ∈ rows, u16 (c.I + curr_y) < MEMORY_SIZE)
    (h : ∀ i ∈ spriteCells c.Memory c.I x y rows, i < DISPLAY_SIZE) :
    rows.foldlM (drawRow x y) c =
      some ((spriteCells c.Memory c.I x y rows).foldl drawPixel c) := by
  induction rows generalizing c with
  | nil => rfl
  | cons r rows ih =>
    rw [List.foldlM_cons]
    unfold drawRow
    dsimp only
    rw [if_pos (hmem r (List.mem_cons_self r rows))]
    unfold spriteCells at h ⊢
    rw [List.flatMap_cons] at h ⊢
    rw [drawCol_fold, List.foldl_append]
    · have hf := drawPixel_fold_frame (rowCells x y r (c.Memory (u16 (c.I + r))) (List.range 8)) c
      have hM := congrArg Cpu.Memory hf
      have hI := congrArg Cpu.I hf
      dsimp only at hM hI
      simp only [Option.bind_eq_bind, Option.some_bind]
      have := ih ((rowCells x y r (c.Memory (u16 (c.I + r))) (List.range 8)).foldl drawPixel c)
        (by rw [hI]; exact fun j hj => hmem j (List.mem_cons_of_mem r hj))
        (by rw [hI, hM]; exact fun i hi => h i (List.mem_append_right _ hi))
      rw [hI, hM] at this
      exact this
    · intro k hk hb
      apply h
      apply List.mem_append_left
      unfold rowCells
      exact List.mem_map.2 ⟨k, List.mem_filter.2 ⟨hk, by simpa using hb⟩, rfl⟩

theorem drawPixel_fold_display (l : List Nat) (hl : l.Nodup) (c : Cpu) (i : Nat) :
    (i ∈ l → (l.foldl drawPixel c).Display i = c.Display i ^^^ 1) ∧
    (i ∉ l → (l.foldl drawPixel c).Display i = c.Display i) := by
  induction l generalizing c with
  | nil => exact ⟨fun h => absurd h (List.not_mem_nil i), fun _ => rfl⟩
  | cons k l ih =>
    rw [List.foldl_cons]
    obtain ⟨hk, hl'⟩ := List.nodup_cons.1 hl
    obtain ⟨h1, h2⟩ := ih hl' (drawPixel c k)
    have hd : (drawPixel c k).Display = Function.update c.Display k (c.Display k ^^^ 1) := by
      unfold drawPixel
      split_ifs <;> rfl
    constructor
    · intro hi
      rcases List.mem_cons.1 hi with rfl | hi'
      · rw [h2 hk, hd, Function.update_same]
      · have hne : i ≠ k := fun e => hk (e ▸ hi')
        rw [h1 hi', hd, Function.update_noteq hne]
    · intro hi
      have hne : i ≠ k := fun e => hi (e ▸ List.mem_cons_self k l)
      have hi' : i ∉ l := fun e => hi (List.mem_cons_of_mem k e)
      rw [h2 hi', hd, Function.update_noteq hne]

theorem drawPixel_fold_flag (l : List Nat) (hl : l.Nodup) (c : Cpu) :
    ((∃ i ∈ l, c.Display i = 1) → (l.foldl drawPixel c).V = Function.update c.V 0xF 1) ∧
    ((∀ i ∈ l, c.Display i ≠ 1) → (l.foldl drawPixel c).V = c.V) := by
  induction l generalizing c with
  | nil => exact ⟨fun ⟨i, hi, _⟩ => absurd hi (List.not_mem_nil i), fun _ => rfl⟩
  | cons k l ih =>
    rw [List.foldl_cons]
    obtain ⟨hk, hl'⟩ := List.nodup_cons.1 hl
    obtain ⟨h1, h2⟩ := ih hl' (drawPixel c k)
    have hd : ∀ i ∈ l, (drawPixel c k).Display i = c.Display i := by
      intro i hi
      have hne : i ≠ k := fun e => hk (e ▸ hi)
      unfold drawPixel
      split_ifs <;> exact Function.update_noteq hne _ _
    have hex : (∃ i ∈ l, (drawPixel c k).Display i = 1) ↔ ∃ i ∈ l, c.Display i = 1 :=
      ⟨fun ⟨i, hi, h⟩ => ⟨i, hi, hd i hi ▸ h⟩, fun ⟨i, hi, h⟩ => ⟨i, hi, (hd i hi).symm ▸ h⟩⟩
    have hall : (∀ i ∈ l, (drawPixel c k).Display i ≠ 1) ↔ ∀ i ∈ l, c.Display i ≠ 1 :=
      ⟨fun h i hi => hd i hi ▸ h i hi, fun h i hi => (hd i hi).symm ▸ h i hi⟩
    rw [hex] at h1
    rw [hall] at h2
    by_cases hck : c.Display k = 1
    · have hv : (drawPixel c k).V = Function.update c.V 0xF 1 := by
        unfold drawPixel; rw [if_pos hck]
      constructor
      · intro _
        by_cases hrest : ∃ i ∈ l, c.Display i = 1
        · rw [h1 hrest, hv, Function.update_idem]
        · push_neg at hrest
          rw [h2 hrest, hv]
      · intro hno
        exact absurd hck (hno k (List.mem_cons_self k l))
    · have hv : (drawPixel c k).V = c.V := by
        unfold drawPixel; rw [if_neg hck]
      constructor
      · rintro ⟨i, hi, h⟩
        rcases List.mem_cons.1 hi with rfl | hi'
        · exact absurd h hck
        · rw [h1 ⟨i, hi', h⟩, hv]
      · intro hno
        rw [h2 (fun i hi => hno i (List.mem_cons_of_mem k hi)), hv]

theorem mem_rowCells (x y curr_y pixel i : Nat) :
    i ∈ rowCells x y curr_y pixel (List.range 8) ↔
      ∃ col, col < 8 ∧ pixel &&& (0x80 >>> col) ≠ 0 ∧
        i = u16 (x + col + (y + curr_y) * NUM_COLS) := by
  unfold rowCells
  simp only [List.mem_map, List.mem_filter, List.mem_range, decide_eq_true_eq]
  constructor
  · rintro ⟨col, ⟨h1, h2⟩, h3⟩
    exact ⟨col, h1, h2, h3.symm⟩
  · rintro ⟨col, h1, h2, h3⟩
    exact ⟨col, ⟨h1, h2⟩, h3.symm⟩

theorem mem_spriteCells (mem : Nat → Nat) (a x y n i : Nat) :
    i ∈ spriteCells mem a x y (List.range n) ↔
      ∃ row, row < n ∧ ∃ col, col < 8 ∧ mem (u16 (a + row)) &&& (0x80 >>> col) ≠ 0 ∧
        i = u16 (x + col + (y + row) * NUM_COLS) := by
  unfold spriteCells
  simp only [List.mem_flatMap, List.mem_range, mem_rowCells]

theorem spriteCells_nodup (mem : Nat → Nat) (a x y n : Nat)
    (h : ∀ row, row < n → ∀ col, col < 8 → x + col + (y + row) * NUM_COLS < 65536) :
    (spriteCells mem a x y (List.range n)).Nodup := by
  unfold spriteCells
  rw [List.nodup_flatMap]
  constructor
  · intro r hr
    unfold rowCells
    apply List.Nodup.map_on
    · intro c1 h1 c2 h2 he
      have hc1 := List.mem_range.1 (List.mem_filter.1 h1).1
      have hc2 := List.mem_range.1 (List.mem_filter.1 h2).1
      have b1 := h r (List.mem_range.1 hr) c1 hc1
      have b2 := h r (List.mem_range.1 hr) c2 hc2
      unfold u16 at he
      omega
    · exact (List.nodup_range 8).filter _
  · apply (List.pairwise_lt_range n).imp_of_mem
    intro r1 r2 hr1 hr2 hlt
    show List.Disjoint _ _
    intro i h1 h2
    obtain ⟨c1, hc1, _, e1⟩ := (mem_rowCells _ _ _ _ _).1 h1
    obtain ⟨c2, hc2, _, e2⟩ := (mem_rowCells _ _ _ _ _).1 h2
    have b1 := h r1 (List.mem_range.1 hr1) c1 hc1
    have b2 := h r2 (List.mem_range.1 hr2) c2 hc2
    unfold u16 NUM_COLS at *
    omega

theorem HandleDXYNOpcode_cells (cpu : Cpu)
    (hmem : ∀ row, row < cpu.Opcode &&& 0x000F → u16 (cpu.I + row) < MEMORY_SIZE)
    (hraw : ∀ row, row < cpu.Opcode &&& 0x000F → ∀ col, col < 8 →
      u16 (cpu.V ((cpu.Opcode &&& 0x0F00) >>> 8)) + col +
        (u16 (cpu.V ((cpu.Opcode &&& 0x00F0) >>> 4)) + row) * NUM_COLS < 65536)
    (hdisp : ∀ i ∈ spriteCells cpu.Memory cpu.I (u16 (cpu.V ((cpu.Opcode &&& 0x0F00) >>> 8)))
      (u16 (cpu.V ((cpu.Opcode &&& 0x00F0) >>> 4))) (List.range (cpu.Opcode &&& 0x000F)),
      i < DISPLAY_SIZE) :
    ∃ cpu', HandleDXYNOpcode cpu = .ok cpu' ∧
      (∀ i, (i ∈ spriteCells cpu.Memory cpu.I (u16 (cpu.V ((cpu.Opcode &&& 0x0F00) >>> 8)))
            (u16 (cpu.V ((cpu.Opcode &&& 0x00F0) >>> 4))) (List.range (cpu.Opcode &&& 0x000F)) →
          cpu'.Display i = cpu.Display i ^^^ 1) ∧
        (i ∉ spriteCells cpu.Memory cpu.I (u16 (cpu.V ((cpu.Opcode &&& 0x0F00) >>> 8)))
            (u16 (cpu.V ((cpu.Opcode &&& 0x00F0) >>> 4))) (List.range (cpu.Opcode &&& 0x000F)) →
          cpu'.Display i = cpu.Display i)) ∧
      ((∃ i ∈ spriteCells cpu.Memory cpu.I (u16 (cpu.V ((cpu.Opcode &&& 0x0F00) >>> 8)))
            (u16 (cpu.V ((cpu.Opcode &&& 0x00F0) >>> 4))) (List.range (cpu.Opcode &&& 0x000F)),
          cpu.Display i = 1) → cpu'.V = Function.update cpu.V 0xF 1) ∧
      ((∀ i ∈ spriteCells cpu.Memory cpu.I (u16 (cpu.V ((cpu.Opcode &&& 0x0F00) >>> 8)))
            (u16 (cpu.V ((cpu.Opcode &&& 0x00F0) >>> 4))) (List.range (cpu.Opcode &&& 0x000F)),
          cpu.Display i ≠ 1) → cpu'.V = Function.update cpu.V 0xF 0) ∧
      cpu' = { cpu with
        V := cpu'.V, Display := cpu'.Display, PC := u16 (cpu.PC + 2), ShouldDraw := true } := by
  generalize hL : spriteCells cpu.Memory cpu.I (u16 (cpu.V ((cpu.Opcode &&& 0x0F00) >>> 8)))
    (u16 (cpu.V ((cpu.Opcode &&& 0x00F0) >>> 4))) (List.range (cpu.Opcode &&& 0x000F)) = L
    at hdisp ⊢
  have hnd : L.Nodup := hL ▸ spriteCells_nodup _ _ _ _ _ hraw
  have hrun : HandleDXYNOpcode cpu =
      .ok { L.foldl drawPixel { cpu with V := Function.update cpu.V 0xF 0 } with
        PC := u16 ((L.foldl drawPixel { cpu with V := Function.update cpu.V 0xF 0 }).PC + 2)
        ShouldDraw := true } := by
    unfold HandleDXYNOpcode
    dsimp only
    rw [drawRow_fold _ _ _ { cpu with V := Function.update cpu.V 0xF 0 }
      (fun r hr => hmem r (List.mem_range.1 hr)) (by dsimp only; rw [hL]; exact hdisp)]
    dsimp only
    rw [hL]
  have hfr := drawPixel_fold_frame L { cpu with V := Function.update cpu.V 0xF 0 }
  have hD := drawPixel_fold_display L hnd { cpu with V := Function.update cpu.V 0xF 0 }
  have hV := drawPixel_fold_flag L hnd { cpu with V := Function.update cpu.V 0xF 0 }
  generalize L.foldl drawPixel { cpu with V := Function.update cpu.V 0xF 0 } = c1
    at hrun hfr hD hV
  dsimp only at hD hV
  refine ⟨_, hrun, hD, ?_, hV.2, ?_⟩
  · intro h
    show c1.V = _
    rw [hV.1 h, Function.update_idem]
  · unfold DrawFrame at hfr
    dsimp only
    rw [hfr]

/-! ## Sprite drawing in the words of the specification -/

theorem and_two_pow_ne_zero (m k : Nat) : m &&& 2 ^ k ≠ 0 ↔ m.testBit k = true := by
  constructor
  · intro h
    by_contra hb
    apply h
    apply Nat.eq_of_testBit_eq
    intro j
    rw [Nat.testBit_and, Nat.testBit_two_pow, Nat.zero_testBit]
    by_cases hj : k = j
    · subst hj; simp [hb]
    · simp [hj]
  · intro hb h
    have h2 := congrArg (fun z => Nat.testBit z k) h
    simp only [Nat.testBit_and, hb, Nat.testBit_two_pow_self, Bool.and_self,
      Nat.zero_testBit] at h2
    cases h2

theorem mask_bit_iff (pixel col : Nat) (hcol : col < 8) :
    pixel &&& (0x80 >>> col) ≠ 0 ↔ pixel.testBit (7 - col) = true := by
  have h : 0x80 >>> col = 2 ^ (7 - col) := by
    interval_cases col <;> rfl
  rw [h]
  exact and_two_pow_ne_zero pixel (7 - col)

theorem mem_spriteCells_iff (cpu : Cpu) (hwf : WF cpu) (hmem : spriteInMemory cpu) (i : Nat) :
    i ∈ spriteCells cpu.Memory cpu.I (u16 (regX cpu)) (u16 (regY cpu))
        (List.range (rowsN cpu)) ↔ spriteHits cpu i := by
  have hx : regX cpu < 256 := hwf.reg _ (field_x_lt cpu.Opcode)
  have hy : regY cpu < 256 := hwf.reg _ (field_y_lt cpu.Opcode)
  have hn : rowsN cpu < 16 := field_n_lt cpu.Opcode
  have hux : u16 (regX cpu) = regX cpu := by unfold u16; omega
  have huy : u16 (regY cpu) = regY cpu := by unfold u16; omega
  rw [mem_spriteCells, hux, huy]
  unfold spriteHits
  constructor
  · rintro ⟨row, hr, col, hc, hb, he⟩
    have hm := hmem row hr
    have hua : u16 (cpu.I + row) = cpu.I + row := by
      unfold u16; unfold MEMORY_SIZE at hm; omega
    rw [hua] at hb
    refine ⟨row, hr, col, hc, (mask_bit_iff _ col hc).1 hb, ?_⟩
    rw [he]
    unfold cellIndex u16 NUM_COLS
    omega
  · rintro ⟨row, hr, col, hc, hb, he⟩
    have hm := hmem row hr
    have hua : u16 (cpu.I + row) = cpu.I + row := by
      unfold u16; unfold MEMORY_SIZE at hm; omega
    refine ⟨row, hr, col, hc, ?_, ?_⟩
    · rw [hua]
      exact (mask_bit_iff _ col hc).2 hb
    · rw [he]
      unfold cellIndex u16 NUM_COLS
      omega

theorem HandleDXYNOpcode_draws (cpu : Cpu) (hwf : WF cpu) (hmem : spriteInMemory cpu)
    (hdisp : ∀ i, spriteHits cpu i → i < DISPLAY_SIZE) :
    ∃ cpu', HandleDXYNOpcode cpu = .ok cpu' ∧
      (∀ i, (spriteHits cpu i → cpu'.Display i = cpu.Display i ^^^ 1) ∧
        (¬ spriteHits cpu i → cpu'.Display i = cpu.Display i)) ∧
      (spriteCollides cpu → cpu'.V = Function.update cpu.V 0xF 1) ∧
      (¬ spriteCollides cpu → cpu'.V = Function.update cpu.V 0xF 0) ∧
      cpu' = { cpu with
        V := cpu'.V, Display := cpu'.Display, PC := u16 (cpu.PC + 2), ShouldDraw := true } := by
  have hx : regX cpu < 256 := hwf.reg _ (field_x_lt cpu.Opcode)
  have hy : regY cpu < 256 := hwf.reg _ (field_y_lt cpu.Opcode)
  have hn : rowsN cpu < 16 := field_n_lt cpu.Opcode
  have hmemb := mem_spriteCells_iff cpu hwf hmem
  obtain ⟨cpu', hrun, hD, hV1, hV0, hfr⟩ := HandleDXYNOpcode_cells cpu
    (fun row hr => by
      have hm := hmem row hr
      unfold u16; unfold MEMORY_SIZE at *; omega)
    (fun row hr col hc => by
      have h1 : row < 16 := lt_trans hr hn
      unfold regX at hx; unfold regY at hy
      unfold u16 NUM_COLS; omega)
    (fun i hi => hdisp i ((hmemb i).1 hi))
  refine ⟨cpu', hrun, fun i => ⟨fun h => (hD i).1 ((hmemb i).2 h),
    fun h => (hD i).2 (fun h' => h ((hmemb i).1 h'))⟩, ?_, ?_, hfr⟩
  · rintro ⟨row, hr, col, hc, hb, hone⟩
    exact hV1 ⟨_, (hmemb _).2 ⟨row, hr, col, hc, hb, rfl⟩, hone⟩
  · intro hno
    apply hV0
    intro i hi hone
    obtain ⟨row, hr, col, hc, hb, he⟩ := (hmemb i).1 hi
    exact hno ⟨row, hr, col, hc, hb, he ▸ hone⟩

theorem spriteInDisplay_hits (cpu : Cpu) (hdisp : spriteInDisplay cpu) (i : Nat)
    (h : spriteHits cpu i) : i < DISPLAY_SIZE := by
  obtain ⟨row, hr, col, hc, _, he⟩ := h
  obtain ⟨h1, h2⟩ := hdisp row hr col hc
  rw [he]
  unfold cellIndex DISPLAY_SIZE NUM_COLS NUM_ROWS at *
  omega

theorem spriteInDisplay_wrapped (cpu : Cpu) (hdisp : spriteInDisplay cpu) (row col : Nat)
    (hr : row < rowsN cpu) (hc : col < 8) : cellIndex cpu row col = wrappedIndex cpu row col := by
  obtain ⟨h1, h2⟩ := hdisp row hr col hc
  unfold cellIndex wrappedIndex
  rw [Nat.mod_eq_of_lt h1, Nat.mod_eq_of_lt h2]

theorem xor_one_ne (d : Nat) : d ^^^ 1 ≠ d := by
  intro h
  have h2 : d ^^^ 1 = d ^^^ 0 := by rw [h, Nat.xor_zero]
  exact absurd (Nat.xor_right_injective h2) (by decide)

theorem xor_one_bit (d : Nat) (h : d = 0 ∨ d = 1) : d ^^^ 1 = 0 ∨ d ^^^ 1 = 1 := by
  rcases h with rfl | rfl
  · right; rfl
  · left; rfl

theorem cpuSprite_wf : WF cpuSprite := by
  constructor <;> intros <;> simp only [cpuSprite, cpu0, memSprite] <;>
    first | omega | (split_ifs <;> omega)

theorem cpuWrap_wf : WF cpuWrap := by
  constructor <;> intros <;> simp only [cpuWrap, cpu0, memSprite] <;>
    first | omega | (split_ifs <;> omega)

theorem draw_preserves_wf (cpu cpu' : Cpu) (hwf : WF cpu)
    (hD : ∀ i, cpu'.Display i = cpu.Display i ^^^ 1 ∨ cpu'.Display i = cpu.Display i)
    (hV : cpu'.V = Function.update cpu.V 0xF 1 ∨ cpu'.V = Function.update cpu.V 0xF 0)
    (hfr : cpu' = { cpu with
      V := cpu'.V, Display := cpu'.Display, PC := u16 (cpu.PC + 2), ShouldDraw := true }) :
    WF cpu' := by
  rw [hfr]
  refine ⟨hwf.mem, ?_, hwf.idx, ?_, hwf.stack, hwf.sp, hwf.delay, hwf.sound, ?_, hwf.keys, hwf.op⟩
  · intro r hr
    dsimp only
    rcases hV with h | h <;> rw [h] <;> by_cases hr15 : r = 0xF
    · subst hr15; rw [Function.update_same]; decide
    · rw [Function.update_noteq hr15]; exact hwf.reg r hr
    · subst hr15; rw [Function.update_same]; decide
    · rw [Function.update_noteq hr15]; exact hwf.reg r hr
  · dsimp only
    unfold u16
    omega
  · intro i hi
    dsimp only
    rcases hD i with h | h <;> rw [h]
    · exact Nat.xor_lt_two_pow (n := 8) (hwf.disp i hi) (by decide)
    · exact hwf.disp i hi

/-! ## Call and return, and the memory opcodes of family `0xF`, in closed form -/

theorem HandleOpcode_fam0 (cpu : Cpu) (rand_int : Nat)
    (h : (cpu.Opcode &&& 0xF000) >>> 12 = 0x0) :
    HandleOpcode cpu rand_int = Handle00Opcodes cpu := by
  unfold HandleOpcode
  simp only [h]
  rfl

theorem HandleOpcode_fam2 (cpu : Cpu) (rand_int : Nat)
    (h : (cpu.Opcode &&& 0xF000) >>> 12 = 0x2) :
    HandleOpcode cpu rand_int = Handle2NNNOpcode cpu := by
  unfold HandleOpcode
  simp only [h]
  rfl

theorem HandleOpcode_ret (cpu : Cpu) (rand_int : Nat) (hop : cpu.Opcode = 0x00EE) :
    HandleOpcode cpu rand_int =
      if cpu.SP = 0 then .err cpu "SP is 0! No functions to return from!"
      else if cpu.SP - 1 < STACK_SIZE then
        .ok { cpu with SP := cpu.SP - 1, PC := u16 (cpu.Stack (cpu.SP - 1) + 2) }
      else .panic := by
  rw [HandleOpcode_fam0 cpu rand_int (by rw [hop]; rfl)]
  unfold Handle00Opcodes
  rw [if_neg (by rw [hop]; decide), if_pos hop]

theorem HandleFXOpcodes_bcd (cpu : Cpu) (h : cpu.Opcode &&& 0x00FF = 0x33) :
    HandleFXOpcodes cpu =
      if cpu.I > MEMORY_SIZE - 3 then
        .err cpu "I is too close to the memory limit for Opcode 0xFX33 to execute!"
      else
        .ok { cpu with
          Memory := Function.update (Function.update (Function.update cpu.Memory cpu.I
              (cpu.V ((cpu.Opcode &&& 0x0F00) >>> 8) / 100))
              (u16 (cpu.I + 1)) ((cpu.V ((cpu.Opcode &&& 0x0F00) >>> 8) % 100) / 10))
              (u16 (cpu.I + 2)) (cpu.V ((cpu.Opcode &&& 0x0F00) >>> 8) % 10)
          PC := u16 (cpu.PC + 2) } := by
  simp only [HandleFXOpcodes, h]
  rfl

theorem HandleFXOpcodes_store (cpu : Cpu) (h : cpu.Opcode &&& 0x00FF = 0x55) :
    HandleFXOpcodes cpu =
      if cpu.I > u16 (MEMORY_SIZE + 65536 - (cpu.Opcode &&& 0x0F00) >>> 8) then
        .err cpu "I is too close to the memory limit for Opcode 0xFX55 to execute!"
      else if cpu.I ≤ MEMORY_SIZE ∧ u16 ((cpu.Opcode &&& 0x0F00) >>> 8 + 1) ≤ 16 then
        .ok { cpu with
          Memory := fun a =>
            if cpu.I ≤ a ∧ a < cpu.I +
                min (MEMORY_SIZE - cpu.I) (u16 ((cpu.Opcode &&& 0x0F00) >>> 8 + 1))
            then cpu.V (a - cpu.I) else cpu.Memory a
          PC := u16 (cpu.PC + 2) }
      else .panic := by
  simp only [HandleFXOpcodes, h]
  rfl

theorem HandleFXOpcodes_load (cpu : Cpu) (h : cpu.Opcode &&& 0x00FF = 0x65) :
    HandleFXOpcodes cpu =
      if cpu.I > u16 (MEMORY_SIZE + 65536 - (cpu.Opcode &&& 0x0F00) >>> 8) then
        .err cpu "I is too close to the memory limit for Opcode 0xFX65 to execute!"
      else if cpu.I ≤ u16 (cpu.I + (cpu.Opcode &&& 0x0F00) >>> 8 + 1) ∧
          u16 (cpu.I + (cpu.Opcode &&& 0x0F00) >>> 8 + 1) ≤ MEMORY_SIZE then
        .ok { cpu with
          V := fun r =>
            if r < min 16 (u16 (cpu.I + (cpu.Opcode &&& 0x0F00) >>> 8 + 1) - cpu.I)
            then cpu.Memory (cpu.I + r) else cpu.V r
          PC := u16 (cpu.PC + 2) }
      else .panic := by
  simp only [HandleFXOpcodes, h]
  rfl

theorem loadWord_fields (x : Nat) (hx : x < 16) :
    ((0xF065 + 256 * x) &&& 0xF000) >>> 12 = 0xF ∧ (0xF065 + 256 * x) &&& 0x00FF = 0x65 ∧
    ((0xF065 + 256 * x) &&& 0x0F00) >>> 8 = x := by
  interval_cases x <;> exact ⟨rfl, rfl, rfl⟩

theorem store_in_range (cpu : Cpu) (rand_int : Nat)
    (hfam : (cpu.Opcode &&& 0xF000) >>> 12 = 0xF) (hsub : cpu.Opcode &&& 0x00FF = 0x55)
    (hin : cpu.I + (cpu.Opcode &&& 0x0F00) >>> 8 < MEMORY_SIZE) :
    HandleOpcode cpu rand_int =
      .ok { cpu with
        Memory := fun a =>
          if cpu.I ≤ a ∧ a < cpu.I + ((cpu.Opcode &&& 0x0F00) >>> 8 + 1)
          then cpu.V (a - cpu.I) else cpu.Memory a
        PC := u16 (cpu.PC + 2) } := by
  have hx := field_x_lt cpu.Opcode
  unfold MEMORY_SIZE at hin
  have hg : ¬ cpu.I > u16 (MEMORY_SIZE + 65536 - (cpu.Opcode &&& 0x0F00) >>> 8) := by
    unfold u16 MEMORY_SIZE; omega
  have hu : u16 ((cpu.Opcode &&& 0x0F00) >>> 8 + 1) = (cpu.Opcode &&& 0x0F00) >>> 8 + 1 := by
    unfold u16; omega
  have hcnt : min (MEMORY_SIZE - cpu.I) ((cpu.Opcode &&& 0x0F00) >>> 8 + 1) =
      (cpu.Opcode &&& 0x0F00) >>> 8 + 1 := by
    unfold MEMORY_SIZE; omega
  rw [HandleOpcode_famF cpu rand_int hfam, HandleFXOpcodes_store cpu hsub, if_neg hg, hu, hcnt,
    if_pos ⟨by unfold MEMORY_SIZE; omega, by omega⟩]

theorem load_in_range (cpu : Cpu) (rand_int : Nat)
    (hfam : (cpu.Opcode &&& 0xF000) >>> 12 = 0xF) (hsub : cpu.Opcode &&& 0x00FF = 0x65)
    (hin : cpu.I + (cpu.Opcode &&& 0x0F00) >>> 8 < MEMORY_SIZE) :
    HandleOpcode cpu rand_int =
      .ok { cpu with
        V := fun r =>
          if r < (cpu.Opcode &&& 0x0F00) >>> 8 + 1 then cpu.Memory (cpu.I + r) else cpu.V r
        PC := u16 (cpu.PC + 2) } := by
  have hx := field_x_lt cpu.Opcode
  unfold MEMORY_SIZE at hin
  have hg : ¬ cpu.I > u16 (MEMORY_SIZE + 65536 - (cpu.Opcode &&& 0x0F00) >>> 8) := by
    unfold u16 MEMORY_SIZE; omega
  have hhi : u16 (cpu.I + (cpu.Opcode &&& 0x0F00) >>> 8 + 1) =
      cpu.I + (cpu.Opcode &&& 0x0F00) >>> 8 + 1 := by
    unfold u16; omega
  have hcnt : min 16 (cpu.I + (cpu.Opcode &&& 0x0F00) >>> 8 + 1 - cpu.I) =
      (cpu.Opcode &&& 0x0F00) >>> 8 + 1 := by
    omega
  rw [HandleOpcode_famF cpu rand_int hfam, HandleFXOpcodes_load cpu hsub, if_neg hg, hhi, hcnt,
    if_pos ⟨by omega, by unfold MEMORY_SIZE; omega⟩]

theorem cpuBcd_wf : WF cpuBcd := by
  constructor <;> intros <;> simp only [cpuBcd, cpu0] <;> omega

/-! ## The claims -/

/-! ### C1: program-counter stepping -/

/-- C1. Whenever `HandleOpcode` succeeds on a word that is not a jump, call or
return (families 0x1, 0x2, 0xB and 00EE) and is not an `FX0A` with no key
pressed, the new PC is the old PC + 4 (mod 2^16) exactly when a skip condition
holds, and the old PC + 2 (mod 2^16) in every other case. -/
theorem HandleOpcode_pc_advance (cpu cpu' : Cpu) (rand_int : Nat)
    (hok : HandleOpcode cpu rand_int = .ok cpu')
    (hj : ¬ isJumpCallReturn cpu.Opcode) (hk : ¬ keyWaitIdle cpu) :
    (cpu'.PC = (cpu.PC + 4) % 65536 ↔ skipCondition cpu) ∧
    (¬ skipCondition cpu → cpu'.PC = (cpu.PC + 2) % 65536) := by
  have h := HandleOpcode_steps cpu rand_int hj hk cpu' hok
  have hne := u16_two_ne_four cpu.PC
  unfold u16 at h hne
  by_cases hs : skipCondition cpu
  · rw [if_pos hs] at h
    exact ⟨⟨fun _ => hs, fun _ => h⟩, fun hn => absurd hs hn⟩
  · rw [if_neg hs] at h
    refine ⟨⟨fun h4 => ?_, fun h' => absurd h' hs⟩, fun _ => h⟩
    rw [h] at h4
    exact absurd h4 hne

/-- Witness for C1: `3000` on the fresh machine (`V[0] = 0 = NN`) skips. -/
theorem HandleOpcode_pc_advance_witness :
    (({ cpu0 with Opcode := 0x3000, PC := 0x204 } : Cpu).PC = (0x200 + 4) % 65536 ↔
      skipCondition { cpu0 with Opcode := 0x3000 }) ∧
    (¬ skipCondition { cpu0 with Opcode := 0x3000 } →
      ({ cpu0 with Opcode := 0x3000, PC := 0x204 } : Cpu).PC = (0x200 + 2) % 65536) :=
  HandleOpcode_pc_advance { cpu0 with Opcode := 0x3000 }
    { cpu0 with Opcode := 0x3000, PC := 0x204 } 0 rfl (by decide)
    (fun h => absurd h.1 (by decide))

/-! ### C2: add with carry -/

/-- C2. `8XY4` with X in 0..14 succeeds and leaves `V[X] = (a + b) mod 256` and
`V[15] = 1` if `a + b > 255`, else `V[15] = 0`, where `a`, `b` are the values
of `V[X]`, `V[Y]` before the call. -/
theorem Handle8XYOpcodes_add (cpu : Cpu) (hwf : WF cpu)
    (hsub : cpu.Opcode &&& 0x000F = 0x4) (hx : (cpu.Opcode &&& 0x0F00) >>> 8 ≠ 0xF) :
    ∃ cpu', Handle8XYOpcodes cpu = .ok cpu' ∧
      cpu'.V ((cpu.Opcode &&& 0x0F00) >>> 8) =
        (cpu.V ((cpu.Opcode &&& 0x0F00) >>> 8) + cpu.V ((cpu.Opcode &&& 0x00F0) >>> 4)) % 256 ∧
      cpu'.V 0xF =
        if cpu.V ((cpu.Opcode &&& 0x0F00) >>> 8) + cpu.V ((cpu.Opcode &&& 0x00F0) >>> 4) > 255
        then 1 else 0 := by
  have ha := hwf.reg _ (field_x_lt cpu.Opcode)
  have hb := hwf.reg _ (field_y_lt cpu.Opcode)
  refine ⟨_, by simp only [Handle8XYOpcodes, hsub]; rfl, ?_, ?_⟩
  · dsimp only
    rw [Function.update_noteq hx, Function.update_same]
    unfold u8 u16
    omega
  · dsimp only
    rw [Function.update_same]
    unfold u16
    split_ifs <;> omega

/-- Witness for C2: `8014` with `V[0] = 200`, `V[1] = 100` gives `V[0] = 44` and a carry. -/
theorem Handle8XYOpcodes_add_witness :
    ∃ cpu', Handle8XYOpcodes { cpu0 with V := regsAB, Opcode := 0x8014 } = .ok cpu' ∧
      cpu'.V 0 = (200 + 100) % 256 ∧ cpu'.V 0xF = 1 :=
  Handle8XYOpcodes_add { cpu0 with V := regsAB, Opcode := 0x8014 }
    (cpu0_wf _ (fun r _ => by simp only [regsAB]; split_ifs <;> omega) (by decide) rfl)
    (by decide) (by decide)

/-! ### C3: subtract with not-borrow -/

/-- C3. `8XY5` with X in 0..14 succeeds and leaves `V[X] = (a - b) mod 256` and
`V[15] = 1` if `a >= b` (no borrow), else `V[15] = 0`. -/
theorem Handle8XYOpcodes_sub (cpu : Cpu) (hwf : WF cpu)
    (hsub : cpu.Opcode &&& 0x000F = 0x5) (hx : (cpu.Opcode &&& 0x0F00) >>> 8 ≠ 0xF) :
    ∃ cpu', Handle8XYOpcodes cpu = .ok cpu' ∧
      (cpu'.V ((cpu.Opcode &&& 0x0F00) >>> 8) : Int) =
        ((cpu.V ((cpu.Opcode &&& 0x0F00) >>> 8) : Int) -
          (cpu.V ((cpu.Opcode &&& 0x00F0) >>> 4) : Int)) % 256 ∧
      cpu'.V 0xF =
        if cpu.V ((cpu.Opcode &&& 0x0F00) >>> 8) ≥ cpu.V ((cpu.Opcode &&& 0x00F0) >>> 4)
        then 1 else 0 := by
  have ha := hwf.reg _ (field_x_lt cpu.Opcode)
  have hb := hwf.reg _ (field_y_lt cpu.Opcode)
  refine ⟨_, by simp only [Handle8XYOpcodes, hsub]; rfl, ?_, ?_⟩
  · dsimp only
    rw [Function.update_noteq hx, Function.update_same]
    unfold u8OfInt i16
    omega
  · dsimp only
    rw [Function.update_same]
    unfold i16
    split_ifs <;> omega

/-- Witness for C3: `8105` with `V[1] = 100`, `V[0] = 200` gives `V[1] = 156` and a borrow. -/
theorem Handle8XYOpcodes_sub_witness :
    ∃ cpu', Handle8XYOpcodes { cpu0 with V := regsAB, Opcode := 0x8105 } = .ok cpu' ∧
      (cpu'.V 1 : Int) = ((100 : Int) - 200) % 256 ∧ cpu'.V 0xF = 0 :=
  Handle8XYOpcodes_sub { cpu0 with V := regsAB, Opcode := 0x8105 }
    (cpu0_wf _ (fun r _ => by simp only [regsAB]; split_ifs <;> omega) (by decide) rfl)
    (by decide) (by decide)

/-! ### C4: shifts -/

/-- C4. For X in 0..14 both shift opcodes set `V[15]` to the least-significant
bit of the pre-shift `a = V[X]`; `8XY6` leaves `V[X] = a / 2` (so
`2 * V[X] + V[15] = a`) and `8XYE` leaves `V[X] = (2 * a) mod 256`.  The
results are functions of `a` alone: `V[Y]` plays no part. -/
theorem Handle8XYOpcodes_shift (cpu : Cpu) (hx : (cpu.Opcode &&& 0x0F00) >>> 8 ≠ 0xF) :
    (cpu.Opcode &&& 0x000F = 0x6 →
      ∃ cpu', Handle8XYOpcodes cpu = .ok cpu' ∧
        cpu'.V 0xF = cpu.V ((cpu.Opcode &&& 0x0F00) >>> 8) &&& 1 ∧
        cpu'.V 0xF = cpu.V ((cpu.Opcode &&& 0x0F00) >>> 8) % 2 ∧
        cpu'.V ((cpu.Opcode &&& 0x0F00) >>> 8) = cpu.V ((cpu.Opcode &&& 0x0F00) >>> 8) / 2 ∧
        2 * cpu'.V ((cpu.Opcode &&& 0x0F00) >>> 8) + cpu'.V 0xF =
          cpu.V ((cpu.Opcode &&& 0x0F00) >>> 8)) ∧
    (cpu.Opcode &&& 0x000F = 0xE →
      ∃ cpu', Handle8XYOpcodes cpu = .ok cpu' ∧
        cpu'.V 0xF = cpu.V ((cpu.Opcode &&& 0x0F00) >>> 8) &&& 1 ∧
        cpu'.V 0xF = cpu.V ((cpu.Opcode &&& 0x0F00) >>> 8) % 2 ∧
        cpu'.V ((cpu.Opcode &&& 0x0F00) >>> 8) =
          (2 * cpu.V ((cpu.Opcode &&& 0x0F00) >>> 8)) % 256) := by
  have hx' : (0xF : Nat) ≠ (cpu.Opcode &&& 0x0F00) >>> 8 := fun h => hx h.symm
  constructor
  · intro hsub
    refine ⟨_, by simp only [Handle8XYOpcodes, hsub]; rfl, ?_, ?_, ?_, ?_⟩
    · dsimp only
      rw [Function.update_noteq hx', Function.update_same]
    · dsimp only
      rw [Function.update_noteq hx', Function.update_same, Nat.and_one_is_mod]
    · dsimp only
      rw [Function.update_same, Function.update_noteq hx, Nat.shiftRight_eq_div_pow]
    · dsimp only
      rw [Function.update_same, Function.update_noteq hx', Function.update_same,
        Function.update_noteq hx, Nat.shiftRight_eq_div_pow, Nat.and_one_is_mod]
      omega
  · intro hsub
    refine ⟨_, by simp only [Handle8XYOpcodes, hsub]; rfl, ?_, ?_, ?_⟩
    · dsimp only
      rw [Function.update_noteq hx', Function.update_same]
    · dsimp only
      rw [Function.update_noteq hx', Function.update_same, Nat.and_one_is_mod]
    · dsimp only
      rw [Function.update_same, Function.update_noteq hx, Nat.shiftLeft_eq]
      unfold u8
      omega

/-- Witness for C4: `8016` and `801E` on `V[0] = 200`, `V[1] = 100`. -/
theorem Handle8XYOpcodes_shift_witness :
    (∃ cpu', Handle8XYOpcodes { cpu0 with V := regsAB, Opcode := 0x8016 } = .ok cpu' ∧
        cpu'.V 0xF = 200 &&& 1 ∧ cpu'.V 0xF = 200 % 2 ∧ cpu'.V 0 = 200 / 2 ∧
        2 * cpu'.V 0 + cpu'.V 0xF = 200) ∧
    (∃ cpu', Handle8XYOpcodes { cpu0 with V := regsAB, Opcode := 0x801E } = .ok cpu' ∧
        cpu'.V 0xF = 200 &&& 1 ∧ cpu'.V 0xF = 200 % 2 ∧ cpu'.V 0 = (2 * 200) % 256) :=
  ⟨(Handle8XYOpcodes_shift { cpu0 with V := regsAB, Opcode := 0x8016 } (by decide)).1
      (by decide),
   (Handle8XYOpcodes_shift { cpu0 with V := regsAB, Opcode := 0x801E } (by decide)).2
      (by decide)⟩

/-! ### C5: collision flag -/

/-- C5. When the display cells are all 0 or 1 and the sprite lies inside
memory and inside the display, `HandleDXYNOpcode` succeeds and leaves
`V[15] = 1` if and only if some set sprite bit landed on a cell that was 1
before the draw, `V[15] = 0` otherwise; `ShouldDraw` is true afterwards (also
for `N = 0`).  Inside the display the cell of a pixel is the same with or
without wrap-around, and the cells stay 0 or 1. -/
theorem HandleDXYNOpcode_collision (cpu : Cpu) (hwf : WF cpu)
    (hbin : ∀ i, i < DISPLAY_SIZE → cpu.Display i = 0 ∨ cpu.Display i = 1)
    (hmem : spriteInMemory cpu) (hdisp : spriteInDisplay cpu) :
    ∃ cpu', HandleDXYNOpcode cpu = .ok cpu' ∧
      (cpu'.V 0xF = 1 ↔ spriteCollides cpu) ∧
      (¬ spriteCollides cpu → cpu'.V 0xF = 0) ∧
      cpu'.ShouldDraw = true ∧
      (∀ row, row < rowsN cpu → ∀ col, col < 8 →
        cellIndex cpu row col = wrappedIndex cpu row col) ∧
      (∀ i, i < DISPLAY_SIZE → cpu'.Display i = 0 ∨ cpu'.Display i = 1) := by
  obtain ⟨cpu', hrun, hD, hV1, hV0, hfr⟩ :=
    HandleDXYNOpcode_draws cpu hwf hmem (spriteInDisplay_hits cpu hdisp)
  refine ⟨cpu', hrun, ?_, ?_, ?_, fun row hr col hc => spriteInDisplay_wrapped cpu hdisp row col hr hc,
    ?_⟩
  · constructor
    · intro h1
      by_contra hno
      rw [hV0 hno, Function.update_same] at h1
      cases h1
    · intro hc
      rw [hV1 hc, Function.update_same]
  · intro hno
    rw [hV0 hno, Function.update_same]
  · rw [hfr]
  · intro i hi
    by_cases hh : spriteHits cpu i
    · rw [(hD i).1 hh]
      exact xor_one_bit _ (hbin i hi)
    · rw [(hD i).2 hh]
      exact hbin i hi

/-- Witness for C5: the sprite `0xFF` drawn over eight lit cells collides. -/
theorem HandleDXYNOpcode_collision_witness :
    ∃ cpu', HandleDXYNOpcode cpuSprite = .ok cpu' ∧
      (cpu'.V 0xF = 1 ↔ spriteCollides cpuSprite) ∧
      (¬ spriteCollides cpuSprite → cpu'.V 0xF = 0) ∧
      cpu'.ShouldDraw = true ∧
      (∀ row, row < rowsN cpuSprite → ∀ col, col < 8 →
        cellIndex cpuSprite row col = wrappedIndex cpuSprite row col) ∧
      (∀ i, i < DISPLAY_SIZE → cpu'.Display i = 0 ∨ cpu'.Display i = 1) :=
  HandleDXYNOpcode_collision cpuSprite cpuSprite_wf
    (fun i _ => by
      simp only [cpuSprite]
      split_ifs
      · exact Or.inr rfl
      · exact Or.inl rfl)
    (by decide) (by decide)

/-! ### C6: drawing twice -/

/-- C6. Drawing is an involution on the display: with X and Y both different
from 0xF and the sprite inside memory and inside the display, two draws in a
row succeed and leave every display cell as it was before the first. -/
theorem HandleDXYNOpcode_twice (cpu : Cpu) (hwf : WF cpu)
    (hX : (cpu.Opcode &&& 0x0F00) >>> 8 ≠ 0xF) (hY : (cpu.Opcode &&& 0x00F0) >>> 4 ≠ 0xF)
    (hmem : spriteInMemory cpu) (hdisp : spriteInDisplay cpu) :
    ∃ cpu1 cpu2, HandleDXYNOpcode cpu = .ok cpu1 ∧ HandleDXYNOpcode cpu1 = .ok cpu2 ∧
      ∀ i, cpu2.Display i = cpu.Display i := by
  obtain ⟨cpu1, hrun1, hD1, hV1, hV0, hfr1⟩ :=
    HandleDXYNOpcode_draws cpu hwf hmem (spriteInDisplay_hits cpu hdisp)
  have hwf1 : WF cpu1 := draw_preserves_wf cpu cpu1 hwf
    (fun i => by
      by_cases hh : spriteHits cpu i
      · exact Or.inl ((hD1 i).1 hh)
      · exact Or.inr ((hD1 i).2 hh))
    (by
      by_cases hc : spriteCollides cpu
      · exact Or.inl (hV1 hc)
      · exact Or.inr (hV0 hc))
    hfr1
  have hOp : cpu1.Opcode = cpu.Opcode := by rw [hfr1]
  have hMem : cpu1.Memory = cpu.Memory := by rw [hfr1]
  have hI : cpu1.I = cpu.I := by rw [hfr1]
  have hVx : regX cpu1 = regX cpu := by
    unfold regX
    rw [hOp]
    by_cases hc : spriteCollides cpu
    · rw [hV1 hc, Function.update_noteq hX]
    · rw [hV0 hc, Function.update_noteq hX]
  have hVy : regY cpu1 = regY cpu := by
    unfold regY
    rw [hOp]
    by_cases hc : spriteCollides cpu
    · rw [hV1 hc, Function.update_noteq hY]
    · rw [hV0 hc, Function.update_noteq hY]
  have hN : rowsN cpu1 = rowsN cpu := by unfold rowsN; rw [hOp]
  have hhits : ∀ i, spriteHits cpu1 i ↔ spriteHits cpu i := by
    intro i
    unfold spriteHits spriteBit cellIndex
    rw [hN, hVx, hVy, hMem, hI]
  have hmem1 : spriteInMemory cpu1 := by
    unfold spriteInMemory
    rw [hN, hI]
    exact hmem
  obtain ⟨cpu2, hrun2, hD2, _, _, _⟩ := HandleDXYNOpcode_draws cpu1 hwf1 hmem1
    (fun i hi => spriteInDisplay_hits cpu hdisp i ((hhits i).1 hi))
  refine ⟨cpu1, cpu2, hrun1, hrun2, fun i => ?_⟩
  by_cases hh : spriteHits cpu i
  · rw [(hD2 i).1 ((hhits i).2 hh), (hD1 i).1 hh, Nat.xor_cancel_right]
  · rw [(hD2 i).2 (fun h => hh ((hhits i).1 h)), (hD1 i).2 hh]

/-- Witness for C6: the sprite `0xFF` drawn twice at `(0, 0)`. -/
theorem HandleDXYNOpcode_twice_witness :
    ∃ cpu1 cpu2, HandleDXYNOpcode cpuSprite = .ok cpu1 ∧ HandleDXYNOpcode cpu1 = .ok cpu2 ∧
      ∀ i, cpu2.Display i = cpuSprite.Display i :=
  HandleDXYNOpcode_twice cpuSprite cpuSprite_wf (by decide) (by decide) (by decide) (by decide)

/-! ### C7: which cells a draw toggles -/

/-- C7 as stated fails: drawn at `V[X] = 60`, pixel `(0, 4)` of the sprite has
wrapped index 0, yet cell 0 is left alone and cell 64 (row 1, column 0), which
is the wrapped index of no sprite pixel, is flipped; and with `V[Y] = 32` the
draw index leaves the display and the handler panics. -/
theorem HandleDXYNOpcode_wrap_counterexample :
    spriteInMemory cpuWrap ∧ spriteInMemory cpuBelow ∧
    spriteBit cpuWrap 0 4 = true ∧ wrappedIndex cpuWrap 0 4 = 0 ∧
    (∀ row, row < rowsN cpuWrap → ∀ col, col < 8 → wrappedIndex cpuWrap row col ≠ 64) ∧
    (∃ cpu', HandleDXYNOpcode cpuWrap = .ok cpu' ∧
      cpu'.Display 0 = cpuWrap.Display 0 ∧ cpu'.Display 64 ≠ cpuWrap.Display 64) ∧
    HandleDXYNOpcode cpuBelow = .panic :=
  ⟨by decide, by decide, by decide, by decide, by decide,
    ⟨_, rfl, by decide, by decide⟩, rfl⟩

/-- C7 (amended). When the sprite bytes lie inside memory and every set sprite
bit has `V[X] + col + (V[Y] + row) * 64` below 2048, `HandleDXYNOpcode`
succeeds and the cells it toggles are exactly those at index
`V[X] + col + (V[Y] + row) * 64`, `row < N`, `col < 8`, sprite bit set: no
coordinate is reduced modulo its dimension. -/
theorem HandleDXYNOpcode_toggles (cpu : Cpu) (hwf : WF cpu) (hmem : spriteInMemory cpu)
    (hdisp : ∀ i, spriteHits cpu i → i < DISPLAY_SIZE) :
    ∃ cpu', HandleDXYNOpcode cpu = .ok cpu' ∧
      ∀ i, (cpu'.Display i ≠ cpu.Display i ↔ spriteHits cpu i) ∧
        (spriteHits cpu i → cpu'.Display i = cpu.Display i ^^^ 1) := by
  obtain ⟨cpu', hrun, hD, _, _, _⟩ := HandleDXYNOpcode_draws cpu hwf hmem hdisp
  refine ⟨cpu', hrun, fun i => ⟨⟨fun hne => ?_, fun hh => ?_⟩, (hD i).1⟩⟩
  · by_contra hh
    exact hne ((hD i).2 hh)
  · rw [(hD i).1 hh]
    exact xor_one_ne _

/-- Witness for C7 (amended): the sprite drawn at `V[X] = 60` flips cells 60..67. -/
theorem HandleDXYNOpcode_toggles_witness :
    ∃ cpu', HandleDXYNOpcode cpuWrap = .ok cpu' ∧
      ∀ i, (cpu'.Display i ≠ cpuWrap.Display i ↔ spriteHits cpuWrap i) ∧
        (spriteHits cpuWrap i → cpu'.Display i = cpuWrap.Display i ^^^ 1) :=
  HandleDXYNOpcode_toggles cpuWrap cpuWrap_wf (by decide)
    (by
      rintro i ⟨row, hr, col, hc, _, rfl⟩
      have hn : rowsN cpuWrap = 1 := rfl
      have hx : regX cpuWrap = 60 := rfl
      have hy : regY cpuWrap = 0 := rfl
      unfold cellIndex DISPLAY_SIZE NUM_COLS NUM_ROWS
      omega)

/-! ### C8: key wait with no key pressed -/

/-- C8. `FX0A` with every Keypad entry zero returns success and leaves the whole
machine state unchanged, PC included. -/
theorem keyWait_idle (cpu : Cpu) (rand_int : Nat)
    (hfam : (cpu.Opcode &&& 0xF000) >>> 12 = 0xF) (hsub : cpu.Opcode &&& 0x00FF = 0x0A)
    (hkeys : ∀ k, k < NUM_KEYS → cpu.Keypad k = 0) :
    HandleOpcode cpu rand_int = .ok cpu := by
  rw [HandleOpcode_famF cpu rand_int hfam, HandleFXOpcodes_keywait cpu hsub,
    scanKey_fold_none _ _ _ (fun i hi => hkeys i (List.mem_range.1 hi))]
  rfl

/-- Witness for C8: `F00A` on the fresh machine, no key down. -/
theorem keyWait_idle_witness :
    HandleOpcode { cpu0 with Opcode := 0xF00A } 0 = .ok { cpu0 with Opcode := 0xF00A } :=
  keyWait_idle { cpu0 with Opcode := 0xF00A } 0 (by decide) (by decide) (fun _ _ => rfl)

/-! ### C9: key wait with a key pressed -/

/-- C9 as stated fails: with keys 1 and 2 both down, the lowest pressed index
is 1 but `F00A` stores 2 in `V[0]`. -/
theorem keyWait_lowest_counterexample :
    cpuTwoKeys.Keypad 1 ≠ 0 ∧ (∀ j, j < 1 → cpuTwoKeys.Keypad j = 0) ∧
    ∃ cpu', HandleOpcode cpuTwoKeys 0 = .ok cpu' ∧ cpu'.V 0 = 2 ∧ cpu'.V 0 ≠ 1 := by
  refine ⟨by decide, by decide, _, rfl, by decide, by decide⟩

/-- C9 (amended). `FX0A` with at least one key pressed succeeds, stores in
`V[X]` the HIGHEST index `k` in 0..15 with `Keypad[k]` nonzero, and advances PC
by 2; nothing else changes. -/
theorem keyWait_stores_highest (cpu : Cpu) (rand_int k : Nat)
    (hfam : (cpu.Opcode &&& 0xF000) >>> 12 = 0xF) (hsub : cpu.Opcode &&& 0x00FF = 0x0A)
    (hk : k < NUM_KEYS) (hpress : cpu.Keypad k ≠ 0)
    (hmax : ∀ j, k < j → j < NUM_KEYS → cpu.Keypad j = 0) :
    HandleOpcode cpu rand_int =
      .ok { cpu with
        V := Function.update cpu.V ((cpu.Opcode &&& 0x0F00) >>> 8) k
        PC := (cpu.PC + 2) % 65536 } := by
  have hu : u8 k = k := by unfold u8; unfold NUM_KEYS at hk; omega
  rw [HandleOpcode_famF cpu rand_int hfam, HandleFXOpcodes_keywait cpu hsub,
    scanKey_fold_highest _ cpu NUM_KEYS k hk hpress hmax, hu]
  rfl

/-- Witness for C9 (amended): keys 1 and 2 down, key 2 is stored. -/
theorem keyWait_stores_highest_witness :
    HandleOpcode cpuTwoKeys 0 =
      .ok { cpuTwoKeys with V := Function.update cpuTwoKeys.V 0 2, PC := 0x202 } :=
  keyWait_stores_highest cpuTwoKeys 0 2 (by decide) (by decide) (by decide) (by decide)
    (fun j h1 _ => if_neg (by omega))

/-! ### C10: failures are atomic -/

/-- C10. Failures are atomic: whenever `HandleOpcode` returns an error, the
state it leaves is exactly the state before the call. -/
theorem HandleOpcode_error_atomic (cpu cpu' : Cpu) (rand_int : Nat) (msg : String)
    (herr : HandleOpcode cpu rand_int = .err cpu' msg) : cpu' = cpu :=
  HandleOpcode_atomic cpu rand_int cpu' msg herr

/-- Witness for C10: `00EE` with an empty stack. -/
theorem HandleOpcode_error_atomic_witness :
    HandleOpcode { cpu0 with Opcode := 0x00EE } 0 =
        .err { cpu0 with Opcode := 0x00EE } "SP is 0! No functions to return from!" ∧
      ({ cpu0 with Opcode := 0x00EE } : Cpu) = { cpu0 with Opcode := 0x00EE } :=
  ⟨rfl, HandleOpcode_error_atomic { cpu0 with Opcode := 0x00EE } { cpu0 with Opcode := 0x00EE } 0
    "SP is 0! No functions to return from!" rfl⟩

/-! ### C11: return with an empty stack -/

/-- C11. Executing `00EE` returns a failure if and only if `SP = 0`, and when
`SP = 0` the failure hands back the machine state unmodified. -/
theorem return_fails_iff (cpu : Cpu) (rand_int : Nat) (hop : cpu.Opcode = 0x00EE) :
    ((∃ c msg, HandleOpcode cpu rand_int = .err c msg) ↔ cpu.SP = 0) ∧
    (cpu.SP = 0 → ∃ msg, HandleOpcode cpu rand_int = .err cpu msg) := by
  rw [HandleOpcode_ret cpu rand_int hop]
  by_cases h0 : cpu.SP = 0
  · rw [if_pos h0]
    exact ⟨⟨fun _ => h0, fun _ => ⟨_, _, rfl⟩⟩, fun _ => ⟨_, rfl⟩⟩
  · rw [if_neg h0]
    refine ⟨⟨?_, fun h => absurd h h0⟩, fun h => absurd h h0⟩
    rintro ⟨c, msg, h⟩
    split_ifs at h

/-- Witness for C11: `00EE` on the fresh machine, whose stack is empty. -/
theorem return_fails_iff_witness :
    ((∃ c msg, HandleOpcode { cpu0 with Opcode := 0x00EE } 0 = .err c msg) ↔
      ({ cpu0 with Opcode := 0x00EE } : Cpu).SP = 0) ∧
    ∃ msg, HandleOpcode { cpu0 with Opcode := 0x00EE } 0 =
      .err { cpu0 with Opcode := 0x00EE } msg :=
  ⟨(return_fails_iff { cpu0 with Opcode := 0x00EE } 0 rfl).1,
    (return_fails_iff { cpu0 with Opcode := 0x00EE } 0 rfl).2 rfl⟩

/-! ### C12: return with a non-empty stack -/

/-- C12 as stated fails: with `SP = 1` and `Stack[0] = 0x300` the new PC is
`0x302`, the popped address plus 2; and with `SP = 17` the handler panics on
`Stack[16]`. -/
theorem return_pc_counterexample :
    0 < cpuRet.SP ∧ cpuRet.Stack (cpuRet.SP - 1) = 0x300 ∧
    (∃ cpu', HandleOpcode cpuRet 0 = .ok cpu' ∧ cpu'.PC = 0x302 ∧
      cpu'.PC ≠ cpuRet.Stack (cpuRet.SP - 1)) ∧
    0 < cpuDeep.SP ∧ HandleOpcode cpuDeep 0 = .panic :=
  ⟨by decide, by decide, ⟨_, rfl, by decide, by decide⟩, by decide, rfl⟩

/-- C12 (amended). With `0 < SP <= STACK_SIZE`, `00EE` succeeds, decrements SP
by one and sets PC to the popped return address plus 2 (mod 2^16); nothing
else changes. -/
theorem return_pops (cpu : Cpu) (rand_int : Nat) (hop : cpu.Opcode = 0x00EE)
    (hpos : 0 < cpu.SP) (hcap : cpu.SP ≤ STACK_SIZE) :
    HandleOpcode cpu rand_int =
      .ok { cpu with SP := cpu.SP - 1, PC := (cpu.Stack (cpu.SP - 1) + 2) % 65536 } := by
  rw [HandleOpcode_ret cpu rand_int hop, if_neg (by omega), if_pos (by omega)]
  rfl

/-- Witness for C12 (amended): popping `0x300` lands on `0x302`. -/
theorem return_pops_witness :
    HandleOpcode cpuRet 0 = .ok { cpuRet with SP := 0, PC := 0x302 } :=
  return_pops cpuRet 0 rfl (by decide) (by decide)

/-! ### C13: call -/

/-- C13. `2NNN` fails if and only if `SP >= STACK_SIZE`; when it succeeds the
slot at the old SP holds the old PC, SP is the old SP + 1 (still at most
`STACK_SIZE`), PC is NNN, every other stack slot is unchanged, and registers,
I, memory and display are unchanged. -/
theorem call_pushes (cpu : Cpu) (rand_int : Nat)
    (hfam : (cpu.Opcode &&& 0xF000) >>> 12 = 0x2) :
    ((∃ c msg, HandleOpcode cpu rand_int = .err c msg) ↔ cpu.SP ≥ STACK_SIZE) ∧
    (cpu.SP < STACK_SIZE →
      ∃ cpu', HandleOpcode cpu rand_int = .ok cpu' ∧
        cpu'.Stack cpu.SP = cpu.PC ∧ cpu'.SP = cpu.SP + 1 ∧ cpu'.SP ≤ STACK_SIZE ∧
        cpu'.PC = cpu.Opcode &&& 0x0FFF ∧
        (∀ k, k ≠ cpu.SP → cpu'.Stack k = cpu.Stack k) ∧
        cpu'.V = cpu.V ∧ cpu'.I = cpu.I ∧ cpu'.Memory = cpu.Memory ∧
        cpu'.Display = cpu.Display ∧
        cpu' = { cpu with
          Stack := Function.update cpu.Stack cpu.SP cpu.PC, SP := cpu.SP + 1,
          PC := cpu.Opcode &&& 0x0FFF }) := by
  rw [HandleOpcode_fam2 cpu rand_int hfam]
  unfold Handle2NNNOpcode
  by_cases h : cpu.SP ≥ STACK_SIZE
  · rw [if_pos h]
    exact ⟨⟨fun _ => h, fun _ => ⟨_, _, rfl⟩⟩, fun h' => absurd h (not_le.2 h')⟩
  · rw [if_neg h]
    refine ⟨⟨?_, fun h' => absurd h' h⟩, fun hlt => ⟨_, rfl, ?_, rfl, ?_, rfl, ?_, rfl, rfl, rfl,
      rfl, rfl⟩⟩
    · rintro ⟨c, msg, h'⟩
      cases h'
    · exact Function.update_same _ _ _
    · show cpu.SP + 1 ≤ STACK_SIZE
      omega
    · intro k hk
      exact Function.update_noteq hk _ _

/-- Witness for C13: `2ABC` on the fresh machine. -/
theorem call_pushes_witness :
    ((∃ c msg, HandleOpcode { cpu0 with Opcode := 0x2ABC } 0 = .err c msg) ↔
      ({ cpu0 with Opcode := 0x2ABC } : Cpu).SP ≥ STACK_SIZE) ∧
    ∃ cpu', HandleOpcode { cpu0 with Opcode := 0x2ABC } 0 = .ok cpu' ∧
      cpu'.Stack 0 = 0x200 ∧ cpu'.SP = 0 + 1 ∧ cpu'.SP ≤ STACK_SIZE ∧
      cpu'.PC = 0x2ABC &&& 0x0FFF ∧
      (∀ k, k ≠ 0 → cpu'.Stack k = cpu0.Stack k) ∧
      cpu'.V = cpu0.V ∧ cpu'.I = cpu0.I ∧ cpu'.Memory = cpu0.Memory ∧
      cpu'.Display = cpu0.Display ∧
      cpu' = { cpu0 with
        Opcode := 0x2ABC, Stack := Function.update cpu0.Stack 0 0x200, SP := 0 + 1,
        PC := 0x2ABC &&& 0x0FFF } :=
  ⟨(call_pushes { cpu0 with Opcode := 0x2ABC } 0 (by decide)).1,
    (call_pushes { cpu0 with Opcode := 0x2ABC } 0 (by decide)).2 (by decide)⟩

/-! ### C14: binary-coded decimal -/

/-- C14. `FX33` with `I <= MEMORY_SIZE - 3` succeeds and writes the hundreds,
tens and ones digits of `V[X]` to `Memory[I]`, `Memory[I+1]`, `Memory[I+2]`:
each is at most 9 (the hundreds digit at most 2), they recompose to `V[X]`,
and every other memory byte is unchanged; with `I > MEMORY_SIZE - 3` it fails,
leaving the state alone. -/
theorem bcd_digits (cpu : Cpu) (rand_int : Nat) (hwf : WF cpu)
    (hfam : (cpu.Opcode &&& 0xF000) >>> 12 = 0xF) (hsub : cpu.Opcode &&& 0x00FF = 0x33) :
    (cpu.I ≤ MEMORY_SIZE - 3 →
      ∃ cpu', HandleOpcode cpu rand_int = .ok cpu' ∧
        cpu'.Memory cpu.I = cpu.V ((cpu.Opcode &&& 0x0F00) >>> 8) / 100 ∧
        cpu'.Memory (cpu.I + 1) = cpu.V ((cpu.Opcode &&& 0x0F00) >>> 8) / 10 % 10 ∧
        cpu'.Memory (cpu.I + 2) = cpu.V ((cpu.Opcode &&& 0x0F00) >>> 8) % 10 ∧
        cpu'.Memory cpu.I ≤ 2 ∧ cpu'.Memory (cpu.I + 1) ≤ 9 ∧ cpu'.Memory (cpu.I + 2) ≤ 9 ∧
        100 * cpu'.Memory cpu.I + 10 * cpu'.Memory (cpu.I + 1) + cpu'.Memory (cpu.I + 2) =
          cpu.V ((cpu.Opcode &&& 0x0F00) >>> 8) ∧
        (∀ a, a ≠ cpu.I → a ≠ cpu.I + 1 → a ≠ cpu.I + 2 → cpu'.Memory a = cpu.Memory a) ∧
        cpu' = { cpu with Memory := cpu'.Memory, PC := (cpu.PC + 2) % 65536 }) ∧
    (cpu.I > MEMORY_SIZE - 3 → ∃ msg, HandleOpcode cpu rand_int = .err cpu msg) := by
  have hv := hwf.reg _ (field_x_lt cpu.Opcode)
  rw [HandleOpcode_famF cpu rand_int hfam, HandleFXOpcodes_bcd cpu hsub]
  constructor
  · intro hI
    rw [if_neg (not_lt.2 hI)]
    unfold MEMORY_SIZE at hI
    have h1 : u16 (cpu.I + 1) = cpu.I + 1 := by unfold u16; omega
    have h2 : u16 (cpu.I + 2) = cpu.I + 2 := by unfold u16; omega
    rw [h1, h2]
    have e0 : Function.update (Function.update (Function.update cpu.Memory cpu.I
        (cpu.V ((cpu.Opcode &&& 0x0F00) >>> 8) / 100)) (cpu.I + 1)
        ((cpu.V ((cpu.Opcode &&& 0x0F00) >>> 8) % 100) / 10)) (cpu.I + 2)
        (cpu.V ((cpu.Opcode &&& 0x0F00) >>> 8) % 10) cpu.I =
        cpu.V ((cpu.Opcode &&& 0x0F00) >>> 8) / 100 := by
      rw [Function.update_noteq (by omega), Function.update_noteq (by omega),
        Function.update_same]
    have e1 : Function.update (Function.update (Function.update cpu.Memory cpu.I
        (cpu.V ((cpu.Opcode &&& 0x0F00) >>> 8) / 100)) (cpu.I + 1)
        ((cpu.V ((cpu.Opcode &&& 0x0F00) >>> 8) % 100) / 10)) (cpu.I + 2)
        (cpu.V ((cpu.Opcode &&& 0x0F00) >>> 8) % 10) (cpu.I + 1) =
        (cpu.V ((cpu.Opcode &&& 0x0F00) >>> 8) % 100) / 10 := by
      rw [Function.update_noteq (by omega), Function.update_same]
    have e2 : Function.update (Function.update (Function.update cpu.Memory cpu.I
        (cpu.V ((cpu.Opcode &&& 0x0F00) >>> 8) / 100)) (cpu.I + 1)
        ((cpu.V ((cpu.Opcode &&& 0x0F00) >>> 8) % 100) / 10)) (cpu.I + 2)
        (cpu.V ((cpu.Opcode &&& 0x0F00) >>> 8) % 10) (cpu.I + 2) =
        cpu.V ((cpu.Opcode &&& 0x0F00) >>> 8) % 10 := by
      rw [Function.update_same]
    refine ⟨_, rfl, ?_, ?_, ?_, ?_, ?_, ?_, ?_, ?_, rfl⟩ <;> dsimp only
    · exact e0
    · rw [e1]; omega
    · exact e2
    · rw [e0]; omega
    · rw [e1]; omega
    · rw [e2]; omega
    · rw [e0, e1, e2]; omega
    · intro a ha0 ha1 ha2
      rw [Function.update_noteq ha2, Function.update_noteq ha1, Function.update_noteq ha0]
  · intro hI
    rw [if_pos hI]
    exact ⟨_, rfl⟩

/-- Witness for C14: `V[0] = 157` stored at `0x400` is 1, 5, 7; and `I = 4094`
is refused. -/
theorem bcd_digits_witness :
    (∃ cpu', HandleOpcode cpuBcd 0 = .ok cpu' ∧
        cpu'.Memory 0x400 = 157 / 100 ∧ cpu'.Memory (0x400 + 1) = 157 / 10 % 10 ∧
        cpu'.Memory (0x400 + 2) = 157 % 10 ∧
        cpu'.Memory 0x400 ≤ 2 ∧ cpu'.Memory (0x400 + 1) ≤ 9 ∧ cpu'.Memory (0x400 + 2) ≤ 9 ∧
        100 * cpu'.Memory 0x400 + 10 * cpu'.Memory (0x400 + 1) + cpu'.Memory (0x400 + 2) =
          157 ∧
        (∀ a, a ≠ 0x400 → a ≠ 0x400 + 1 → a ≠ 0x400 + 2 → cpu'.Memory a = cpuBcd.Memory a) ∧
        cpu' = { cpuBcd with Memory := cpu'.Memory, PC := (0x200 + 2) % 65536 }) ∧
    ∃ msg, HandleOpcode { cpuBcd with I := 4094 } 0 = .err { cpuBcd with I := 4094 } msg :=
  ⟨(bcd_digits cpuBcd 0 cpuBcd_wf (by decide) (by decide)).1 (by decide),
    (bcd_digits { cpuBcd with I := 4094 } 0
      (by constructor <;> intros <;> simp only [cpuBcd, cpu0] <;> omega)
      (by decide) (by decide)).2 (by decide)⟩

/-! ### C15: bulk store, then bulk load -/

/-- C15. With `I + X < MEMORY_SIZE`, executing `FX55`, then replacing the
register file by arbitrary values `regs` (I and memory kept), then executing
`FX65` with the same X succeeds both times, leaves `V[0..X]` as they were
before the `FX55`, leaves `V[X+1..15]` as they were just before the `FX65`,
and leaves I unchanged throughout. -/
theorem store_load_roundtrip (cpu : Cpu) (r1 r2 : Nat) (regs : Nat → Nat)
    (hfam : (cpu.Opcode &&& 0xF000) >>> 12 = 0xF) (hsub : cpu.Opcode &&& 0x00FF = 0x55)
    (hin : cpu.I + (cpu.Opcode &&& 0x0F00) >>> 8 < MEMORY_SIZE) :
    ∃ cpu1 cpu2, HandleOpcode cpu r1 = .ok cpu1 ∧
      HandleOpcode
        { cpu1 with V := regs, Opcode := 0xF065 + 256 * ((cpu.Opcode &&& 0x0F00) >>> 8) } r2 =
        .ok cpu2 ∧
      (∀ r, r ≤ (cpu.Opcode &&& 0x0F00) >>> 8 → cpu2.V r = cpu.V r) ∧
      (∀ r, (cpu.Opcode &&& 0x0F00) >>> 8 < r → cpu2.V r = regs r) ∧
      cpu1.I = cpu.I ∧ cpu2.I = cpu.I := by
  obtain ⟨hf, hs, hxx⟩ := loadWord_fields _ (field_x_lt cpu.Opcode)
  refine ⟨_, _, store_in_range cpu r1 hfam hsub hin,
    load_in_range _ r2 hf hs (by rw [hxx]; exact hin), ?_, ?_, rfl, rfl⟩
  · intro r hr
    dsimp only
    rw [hxx, if_pos (by omega), if_pos ⟨by omega, by omega⟩]
    congr 1
    omega
  · intro r hr
    dsimp only
    rw [hxx, if_neg (by omega)]

/-- Witness for C15: `F155` at `I = 0x400`, registers zeroed, then `F165`. -/
theorem store_load_roundtrip_witness :
    ∃ cpu1 cpu2, HandleOpcode cpuStore 0 = .ok cpu1 ∧
      HandleOpcode { cpu1 with V := fun _ => 0, Opcode := 0xF065 + 256 * 1 } 0 = .ok cpu2 ∧
      (∀ r, r ≤ 1 → cpu2.V r = regsAB r) ∧
      (∀ r, 1 < r → cpu2.V r = 0) ∧
      cpu1.I = 0x400 ∧ cpu2.I = 0x400 :=
  store_load_roundtrip cpuStore 0 0 (fun _ => 0) (by decide) (by decide) (by decide)

/-! ### C16: the bound guarding bulk store and load -/

/-- C16 fails on the code at the boundary `I = MEMORY_SIZE - X`: `F155` with
`I = 4095` returns success although `I + X = MEMORY_SIZE`, having stored
`V[0]` only and dropped `V[1]`; `F165` there returns nothing, it panics on the
slice bound. -/
theorem bulk_boundary_divergence :
    cpuEdge.I + (cpuEdge.Opcode &&& 0x0F00) >>> 8 ≥ MEMORY_SIZE ∧
    (∃ cpu', HandleOpcode cpuEdge 0 = .ok cpu' ∧ cpu'.Memory 4095 = cpuEdge.V 0 ∧
      ∀ a, a ≠ 4095 → cpu'.Memory a = cpuEdge.Memory a) ∧
    HandleOpcode { cpuEdge with Opcode := 0xF165 } 0 = .panic := by
  refine ⟨by decide, ⟨_, rfl, by decide, fun a ha => ?_⟩, rfl⟩
  show (if (4095 ≤ a ∧ a < 4095 + min (MEMORY_SIZE - 4095) (u16 (1 + 1))) then _ else _) = _
  rw [if_neg]
  unfold MEMORY_SIZE u16
  omega

/-! ### C17: key index -/

/-- C17 fails on the code: with `V[X] = 16`, `EX9E` and `EXA1` index `Keypad`
without validation and panic instead of returning a failure. -/
theorem key_index_divergence :
    cpuBadKey.V ((cpuBadKey.Opcode &&& 0x0F00) >>> 8) = 16 ∧
    HandleEXOpcodes cpuBadKey = .panic ∧
    HandleEXOpcodes { cpuBadKey with Opcode := 0xE0A1 } = .panic :=
  ⟨rfl, rfl, rfl⟩

/-! ### C18: sprite past the end of memory -/

/-- C18 fails on the code: `D012` with `I = 4095` has `I + N > MEMORY_SIZE`,
yet no failure is returned; the handler clears `V[15]`, draws the first row
and then panics reading `Memory[4096]`. -/
theorem sprite_past_memory_divergence :
    0 < cpuPastEnd.Opcode &&& 0x000F ∧
    cpuPastEnd.I + (cpuPastEnd.Opcode &&& 0x000F) > MEMORY_SIZE ∧
    HandleDXYNOpcode cpuPastEnd = .panic ∧
    ∃ c1, drawRow 0 0 { cpuPastEnd with V := Function.update cpuPastEnd.V 0xF 0 } 0 = some c1 ∧
      c1.V 0xF ≠ cpuPastEnd.V 0xF ∧ c1.Display 0 ≠ cpuPastEnd.Display 0 ∧
      drawRow 0 0 c1 1 = none :=
  ⟨by decide, by decide, rfl, _, rfl, by decide, by decide, rfl⟩

/-! ### C19: call, then return -/

/-- C19. With `SP < STACK_SIZE`, executing `2NNN` and then `00EE` succeeds both
times and ends with SP as it was and PC at the old PC + 2 (mod 2^16);
registers, I, memory, timers and display are unchanged, and only the stack
slot at the original SP may differ: it holds the original PC. -/
theorem call_return_roundtrip (cpu : Cpu) (r1 r2 : Nat)
    (hfam : (cpu.Opcode &&& 0xF000) >>> 12 = 0x2) (hsp : cpu.SP < STACK_SIZE) :
    ∃ cpu1, HandleOpcode cpu r1 = .ok cpu1 ∧
      HandleOpcode { cpu1 with Opcode := 0x00EE } r2 =
        .ok { cpu with
          Opcode := 0x00EE
          Stack := Function.update cpu.Stack cpu.SP cpu.PC
          PC := (cpu.PC + 2) % 65536 } := by
  refine ⟨{ cpu with
    Stack := Function.update cpu.Stack cpu.SP cpu.PC, SP := cpu.SP + 1,
    PC := cpu.Opcode &&& 0x0FFF }, ?_, ?_⟩
  · rw [HandleOpcode_fam2 cpu r1 hfam]
    unfold Handle2NNNOpcode
    rw [if_neg (by omega)]
  · rw [HandleOpcode_ret _ r2 rfl]
    dsimp only
    rw [if_neg (by omega), if_pos (by omega)]
    have h1 : cpu.SP + 1 - 1 = cpu.SP := by omega
    rw [h1, Function.update_same]
    rfl

/-- Witness for C19: `2ABC` then `00EE` on the fresh machine ends at `0x202`. -/
theorem call_return_roundtrip_witness :
    ∃ cpu1, HandleOpcode { cpu0 with Opcode := 0x2ABC } 0 = .ok cpu1 ∧
      HandleOpcode { cpu1 with Opcode := 0x00EE } 0 =
        .ok { cpu0 with
          Opcode := 0x00EE
          Stack := Function.update cpu0.Stack 0 0x200
          PC := (0x200 + 2) % 65536 } :=
  call_return_roundtrip { cpu0 with Opcode := 0x2ABC } 0 0 (by decide) (by decide)

/-! ### C20: the flag register as destination -/

/-- C20. For `8FY4`, `8FY5` and `8FY7` the flag write comes last: afterwards
`V[15]` is exactly the carry, respectively not-borrow, bit computed from the
pre-call `V[15]` and `V[Y]`; the 8-bit result is discarded and no other
register changes. -/
theorem flag_destination (cpu : Cpu) (hwf : WF cpu)
    (hx : (cpu.Opcode &&& 0x0F00) >>> 8 = 0xF) :
    (cpu.Opcode &&& 0x000F = 0x4 →
      ∃ cpu', Handle8XYOpcodes cpu = .ok cpu' ∧
        cpu'.V 0xF = (if cpu.V 0xF + cpu.V ((cpu.Opcode &&& 0x00F0) >>> 4) > 255 then 1 else 0) ∧
        ∀ r, r ≠ 0xF → cpu'.V r = cpu.V r) ∧
    (cpu.Opcode &&& 0x000F = 0x5 →
      ∃ cpu', Handle8XYOpcodes cpu = .ok cpu' ∧
        cpu'.V 0xF = (if cpu.V 0xF ≥ cpu.V ((cpu.Opcode &&& 0x00F0) >>> 4) then 1 else 0) ∧
        ∀ r, r ≠ 0xF → cpu'.V r = cpu.V r) ∧
    (cpu.Opcode &&& 0x000F = 0x7 →
      ∃ cpu', Handle8XYOpcodes cpu = .ok cpu' ∧
        cpu'.V 0xF = (if cpu.V ((cpu.Opcode &&& 0x00F0) >>> 4) ≥ cpu.V 0xF then 1 else 0) ∧
        ∀ r, r ≠ 0xF → cpu'.V r = cpu.V r) := by
  have ha := hwf.reg 0xF (by decide)
  have hb := hwf.reg _ (field_y_lt cpu.Opcode)
  refine ⟨fun hsub => ?_, fun hsub => ?_, fun hsub => ?_⟩
  · refine ⟨_, by simp only [Handle8XYOpcodes, hsub]; rfl, ?_, ?_⟩
    · dsimp only
      rw [Function.update_same, hx]
      unfold u16
      split_ifs <;> omega
    · intro r hr
      dsimp only
      rw [Function.update_noteq hr, hx, Function.update_noteq hr]
  · refine ⟨_, by simp only [Handle8XYOpcodes, hsub]; rfl, ?_, ?_⟩
    · dsimp only
      rw [Function.update_same, hx]
      unfold i16
      split_ifs <;> omega
    · intro r hr
      dsimp only
      rw [Function.update_noteq hr, hx, Function.update_noteq hr]
  · refine ⟨_, by simp only [Handle8XYOpcodes, hsub]; rfl, ?_, ?_⟩
    · dsimp only
      rw [Function.update_same, hx]
      unfold i16
      split_ifs <;> omega
    · intro r hr
      dsimp only
      rw [Function.update_noteq hr, hx, Function.update_noteq hr]

/-- Witness for C20: `8F04`, `8F05`, `8F07` with `V[0] = 200`, `V[15] = 0`. -/
theorem flag_destination_witness :
    (∃ cpu', Handle8XYOpcodes { cpu0 with V := regsAB, Opcode := 0x8F04 } = .ok cpu' ∧
        cpu'.V 0xF = (if regsAB 0xF + regsAB 0 > 255 then 1 else 0) ∧
        ∀ r, r ≠ 0xF → cpu'.V r = regsAB r) ∧
    (∃ cpu', Handle8XYOpcodes { cpu0 with V := regsAB, Opcode := 0x8F05 } = .ok cpu' ∧
        cpu'.V 0xF = (if regsAB 0xF ≥ regsAB 0 then 1 else 0) ∧
        ∀ r, r ≠ 0xF → cpu'.V r = regsAB r) ∧
    (∃ cpu', Handle8XYOpcodes { cpu0 with V := regsAB, Opcode := 0x8F07 } = .ok cpu' ∧
        cpu'.V 0xF = (if regsAB 0 ≥ regsAB 0xF then 1 else 0) ∧
        ∀ r, r ≠ 0xF → cpu'.V r = regsAB r) :=
  ⟨(flag_destination { cpu0 with V := regsAB, Opcode := 0x8F04 }
      (cpu0_wf _ (fun r _ => by simp only [regsAB]; split_ifs <;> omega) (by decide) rfl)
      (by decide)).1 (by decide),
   (flag_destination { cpu0 with V := regsAB, Opcode := 0x8F05 }
      (cpu0_wf _ (fun r _ => by simp only [regsAB]; split_ifs <;> omega) (by decide) rfl)
      (by decide)).2.1 (by decide),
   (flag_destination { cpu0 with V := regsAB, Opcode := 0x8F07 }
      (cpu0_wf _ (fun r _ => by simp only [regsAB]; split_ifs <;> omega) (by decide) rfl)
      (by decide)).2.2 (by decide)⟩

end Chip8
